import Mathlib

namespace Checkout

/-- Errors surfaced by the orchestrator.  The two configuration-conflict errors
thrown by `getSource` itself are distinguished; every collaborator failure is an
`external` error chosen by the environment. -/
inductive Err where
  | submodulesNotSupported : Err
  | sshKeyNotSupported : Err
  | external : Nat → Err
deriving DecidableEq

/-- Modelled from the spec: `ref-helper.ts` is not under `src/`.  A refspec is
an abstract value recording which helper built it (`getRefSpecForAllHistory`
for the blanket all-branches-and-tags fetch, `getRefSpec` for the targeted
fetch) and for which ref/commit pair; the concrete git refspec strings are out
of scope (§6 non-goals). -/
inductive RefSpec where
  | allHistory : String → String → RefSpec
  | targeted : String → String → RefSpec
deriving DecidableEq

/-- Modelled from the spec: `ref-helper.ts` is not under `src/`.  The resolved
`{ref, startPoint}` pair of §3 of the spec. -/
structure CheckoutInfo where
  ref : String
  startPoint : Option String
deriving DecidableEq

/-- `refHelper.getRefSpecForAllHistory` (modelled from the spec, see `RefSpec`). -/
def getRefSpecForAllHistory (ref commit : String) : RefSpec :=
  RefSpec.allHistory ref commit

/-- `refHelper.getRefSpec` (modelled from the spec, see `RefSpec`). -/
def getRefSpec (ref commit : String) : RefSpec :=
  RefSpec.targeted ref commit

/-- The fields of `IGitSourceSettings` read by `getSource`
(`git-source-settings.ts` is not under `src/`; the field set is exactly the one
the source reads, cf. spec §3 `AcquisitionSettings`). -/
structure GitSourceSettings where
  repositoryOwner : String
  repositoryName : String
  repositoryPath : String
  ref : String
  commit : String
  clean : Bool
  fetchDepth : Int
  lfs : Bool
  submodules : Bool
  nestedSubmodules : Bool
  authToken : String
  sshKey : String
  persistCredentials : Bool
  submodulesRemoteBranch : String

/-- Modelled from the spec: `url-helper.ts` is not under `src/` and the URL
format is explicitly out of scope (§6 non-goals); the fetch URL is an opaque
function of the repository coordinates. -/
def getFetchUrl (s : GitSourceSettings) : String :=
  s.repositoryOwner ++ "/" ++ s.repositoryName

/-- One collaborator invocation, as observed in the trace.  Operations that a
git command manager performs against a concrete repository directory carry the
directory path (the working directory the manager was constructed for), so that
top-level operations and per-submodule operations are distinguishable. -/
inductive Event where
  | rmRF : Event
  | mkdirP : Event
  | createCommandManager : String → Event
  | prepareExistingDirectory : Event
  | setRepositoryPath : String → Event
  | gitInit : Event
  | remoteAdd : String → String → Event
  | tryDisableAutomaticGarbageCollection : Event
  | configureAuth : Event
  | remoteBranchExists : String → String → Event
  | getDefaultBranchGit : String → Event
  | getDefaultBranchApi : Event
  | lfsInstall : String → Event
  | fetch : String → RefSpec → Option Int → Event
  | testRef : String → String → Event
  | getCheckoutInfo : String → String → String → Event
  | lfsFetch : String → String → Event
  | checkout : String → String → Option String → Event
  | configureGlobalAuth : Event
  | submoduleSync : Event
  | submoduleUpdate : Event
  | submoduleForeach : Event
  | configureSubmoduleAuth : Event
  | getSubmodulesList : Event
  | removeGlobalAuth : Event
  | log1 : Option String → Event
  | checkCommitInfo : Event
  | removeAuth : Event
  | downloadRepository : String → String → Event
deriving DecidableEq

/-- Behaviour of the external world: the outcome of every collaborator call.
Per-directory git operations are functions of the working-directory path, so a
single environment determines the behaviour of the top-level manager and of
every per-submodule manager.  Filesystem helpers, logging and state recording
are assumed correct (spec §1) and never fail. -/
structure Env where
  fileExists : Bool
  directoryExists : Bool
  dotGitDirectoryExists : Bool
  createCommandManager : String → Except Err Unit
  tryDisableAutomaticGarbageCollection : Bool
  configureAuth : Except Err Unit
  remoteBranchExists : String → String → Except Err Bool
  getDefaultBranchGit : Except Err String
  getDefaultBranchApi : Except Err String
  lfsInstall : String → Except Err Unit
  fetch : String → RefSpec → Option Int → Except Err Unit
  testRef : String → String → Except Err Bool
  getCheckoutInfo : String → String → String → Except Err CheckoutInfo
  lfsFetch : String → String → Except Err Unit
  checkout : String → String → Option String → Except Err Unit
  configureGlobalAuth : Except Err Unit
  submoduleSync : Except Err Unit
  submoduleUpdate : Except Err Unit
  submoduleForeach : Except Err Unit
  configureSubmoduleAuth : Except Err Unit
  getSubmodulesList : Except Err (List String)
  removeGlobalAuth : Except Err Unit
  gitInit : Except Err Unit
  remoteAdd : Except Err Unit
  log1 : Except Err Unit
  checkCommitInfo : Except Err Unit
  removeAuth : Except Err Unit
  downloadRepository : Except Err Unit

/-- A computation: the trace of collaborator calls it performed, together with
its result (normal completion or a thrown error). -/
abbrev M (α : Type) : Type := List Event × Except Err α

/-- Sequencing with JavaScript `throw` semantics: once a computation throws,
nothing later in the block runs. -/
def M.bind {α β : Type} (x : M α) (f : α → M β) : M β :=
  match x with
  | (t, Except.ok a) => (t ++ (f a).1, (f a).2)
  | (t, Except.error e) => (t, Except.error e)

instance : Monad M where
  pure a := ([], Except.ok a)
  bind := M.bind

/-- Invoke a collaborator: the invocation is recorded in the trace, the
environment supplies the outcome. -/
def call {α : Type} (e : Event) (r : Except Err α) : M α :=
  ([e], r)

/-- `throw new Error(...)`. -/
def throwE {α : Type} (e : Err) : M α :=
  ([], Except.error e)

/-- `try { body } finally { fin }`: the finalizer runs on every exit path; if
the body threw, its error is re-raised after the finalizer (an error thrown by
the finalizer itself replaces it, as in JavaScript). -/
def tryFinallyM {α : Type} (body : M α) (fin : M Unit) : M α :=
  match body with
  | (t, Except.ok a) =>
    match fin with
    | (t2, Except.ok _) => (t ++ t2, Except.ok a)
    | (t2, Except.error e) => (t ++ t2, Except.error e)
  | (t, Except.error e) =>
    match fin with
    | (t2, Except.ok _) => (t ++ t2, Except.error e)
    | (t2, Except.error e2) => (t ++ t2, Except.error e2)

/-- `try { body } catch (err) { handler err }`. -/
def tryCatchM {α : Type} (body : M α) (handler : Err → M α) : M α :=
  match body with
  | (t, Except.ok a) => (t, Except.ok a)
  | (t, Except.error e) => (t ++ (handler e).1, (handler e).2)

/-- `gitCommandManager.createCommandManager(repositoryPath, lfs)`: attempts to
construct a manager bound to `repositoryPath`; the handle is identified with
the working-directory path it is bound to. -/
def createCommandManager (repositoryPath : String) (env : Env) : M String :=
  call (Event.createCommandManager repositoryPath)
    ((env.createCommandManager repositoryPath).map fun _ => repositoryPath)

/-- `getGitCommandManager` (src lines 290-308): try to construct a manager;
on failure re-raise when `lfs` is set, otherwise degrade to `none`. -/
def getGitCommandManager (repositoryPath : String) (lfs : Bool) (env : Env) :
    M (Option String) :=
  tryCatchM
    (M.bind (createCommandManager repositoryPath env) fun git => pure (some git))
    (fun err => if lfs then throwE err else pure none)

/-- The REST-API fallback branch of `getSource` (src lines 50-75): the two
configuration-conflict checks (a thrown error skips the rest of the block),
then the download. -/
def fallbackDownload (s : GitSourceSettings) (env : Env) : M Unit :=
  M.bind
    (if s.submodules then throwE Err.submodulesNotSupported
     else if !s.sshKey.isEmpty then throwE Err.sshKeyNotSupported
     else pure ()) fun _ =>
  call (Event.downloadRepository s.ref s.commit) env.downloadRepository

/-- The default-branch trigger condition of src line 107, with JavaScript
short-circuit evaluation: `(!ref && !commit) || (ref && !(await
git.remoteBranchExists(ref)))` — `remoteBranchExists` is only consulted when
the first disjunct is false and `ref` is non-empty. -/
def shouldDetermineDefaultBranch (s : GitSourceSettings) (env : Env) (g : String) :
    M Bool :=
  if s.ref.isEmpty && s.commit.isEmpty then
    pure true
  else if !s.ref.isEmpty then
    M.bind (call (Event.remoteBranchExists g s.ref) (env.remoteBranchExists g s.ref))
      fun b => pure (!b)
  else
    pure false

/-- "Determine the default branch" (src lines 106-119): when triggered, the
default branch — obtained via the native client when an SSH key is configured,
via the GitHub API otherwise — overwrites `settings.ref`.  The (possibly
rewritten) ref value is returned and threaded onward. -/
def determineRef (s : GitSourceSettings) (env : Env) (g repositoryUrl : String) :
    M String :=
  M.bind (shouldDetermineDefaultBranch s env g) fun cond =>
  if cond then
    if !s.sshKey.isEmpty then
      call (Event.getDefaultBranchGit repositoryUrl) env.getDefaultBranchGit
    else
      call Event.getDefaultBranchApi env.getDefaultBranchApi
  else
    pure s.ref

/-- "Fetching the repository" (src lines 127-146): for `fetchDepth <= 0` a
blanket all-history fetch followed, exactly when `testRef` fails, by one
corrective targeted fetch; for `fetchDepth > 0` a single targeted fetch at the
requested depth. -/
def fetchPhase (s : GitSourceSettings) (env : Env) (g ref : String) : M Unit :=
  if s.fetchDepth ≤ 0 then
    let refSpec := getRefSpecForAllHistory ref s.commit
    M.bind (call (Event.fetch g refSpec none) (env.fetch g refSpec none)) fun _ =>
    M.bind (call (Event.testRef ref s.commit) (env.testRef ref s.commit)) fun ok =>
    if !ok then
      let refSpec2 := getRefSpec ref s.commit
      call (Event.fetch g refSpec2 none) (env.fetch g refSpec2 none)
    else
      pure ()
  else
    let refSpec := getRefSpec ref s.commit
    call (Event.fetch g refSpec (some s.fetchDepth)) (env.fetch g refSpec (some s.fetchDepth))

/-- The working directory of the per-submodule git manager
(`settings.repositoryPath + '/' + sub`, src line 206). -/
def subPath (s : GitSourceSettings) (sub : String) : String :=
  s.repositoryPath ++ "/" ++ sub

/-- The body executed for one submodule whose manager could be constructed and
whose own remote exposes the override branch (src lines 211-233). -/
def overrideUpdate (s : GitSourceSettings) (env : Env) (sg : String) : M Unit :=
  M.bind
    (if s.lfs then call (Event.lfsInstall sg) (env.lfsInstall sg) else pure ()) fun _ =>
  M.bind
    (if s.fetchDepth > 0 then
      let refSpec := getRefSpec s.submodulesRemoteBranch ""
      call (Event.fetch sg refSpec (some s.fetchDepth)) (env.fetch sg refSpec (some s.fetchDepth))
    else pure ()) fun _ =>
  M.bind
    (call (Event.getCheckoutInfo sg s.submodulesRemoteBranch "")
      (env.getCheckoutInfo sg s.submodulesRemoteBranch "")) fun subCheckoutInfo =>
  M.bind
    (if s.lfs then
      call (Event.lfsFetch sg (subCheckoutInfo.startPoint.getD subCheckoutInfo.ref))
        (env.lfsFetch sg (subCheckoutInfo.startPoint.getD subCheckoutInfo.ref))
    else pure ()) fun _ =>
  call (Event.checkout sg subCheckoutInfo.ref subCheckoutInfo.startPoint)
    (env.checkout sg subCheckoutInfo.ref subCheckoutInfo.startPoint)

/-- One iteration of the per-submodule override loop (src lines 204-235): a
submodule with no manager, or whose remote lacks the override branch, is
skipped. -/
def overrideIter (s : GitSourceSettings) (env : Env) (sub : String) : M Unit :=
  M.bind (getGitCommandManager (subPath s sub) s.lfs env) fun subGit =>
  match subGit with
  | none => pure ()
  | some sg =>
    M.bind
      (call (Event.remoteBranchExists sg s.submodulesRemoteBranch)
        (env.remoteBranchExists sg s.submodulesRemoteBranch)) fun hasBranch =>
    if hasBranch then
      overrideUpdate s env sg
    else
      pure ()

/-- `for (let sub of submodulesList) { ... }` (src lines 204-235). -/
def submoduleOverrideLoop (s : GitSourceSettings) (env : Env) : List String → M Unit
  | [] => pure ()
  | sub :: rest =>
    M.bind (overrideIter s env sub) fun _ => submoduleOverrideLoop s env rest

/-- The submodule block of `getSource` (src lines 171-242): sync/update/foreach
under a scoped global-auth escalation, optional submodule credential
persistence, and the remote-branch override loop, with `removeGlobalAuth`
guaranteed by `finally`. -/
def submodulePhase (s : GitSourceSettings) (env : Env) : M Unit :=
  if s.submodules then
    tryFinallyM
      (M.bind (call Event.configureGlobalAuth env.configureGlobalAuth) fun _ =>
       M.bind (call Event.submoduleSync env.submoduleSync) fun _ =>
       M.bind (call Event.submoduleUpdate env.submoduleUpdate) fun _ =>
       M.bind (call Event.submoduleForeach env.submoduleForeach) fun _ =>
       M.bind
         (if s.persistCredentials || !s.submodulesRemoteBranch.isEmpty then
           call Event.configureSubmoduleAuth env.configureSubmoduleAuth
         else pure ()) fun _ =>
       if !s.submodulesRemoteBranch.isEmpty then
         M.bind (call Event.getSubmodulesList env.getSubmodulesList) fun submodulesList =>
         submoduleOverrideLoop s env submodulesList
       else
         pure ())
      (call Event.removeGlobalAuth env.removeGlobalAuth)
  else
    pure ()

/-- "Checkout info" through "Check for incorrect pull request merge commit"
(src lines 148-258): resolve the checkout info, optional LFS fetch, checkout,
submodules, commit logging and validation. -/
def checkoutPhase (s : GitSourceSettings) (env : Env) (g ref : String) : M Unit :=
  M.bind
    (call (Event.getCheckoutInfo g ref s.commit) (env.getCheckoutInfo g ref s.commit))
    fun checkoutInfo =>
  M.bind
    (if s.lfs then
      call (Event.lfsFetch g (checkoutInfo.startPoint.getD checkoutInfo.ref))
        (env.lfsFetch g (checkoutInfo.startPoint.getD checkoutInfo.ref))
    else pure ()) fun _ =>
  M.bind
    (call (Event.checkout g checkoutInfo.ref checkoutInfo.startPoint)
      (env.checkout g checkoutInfo.ref checkoutInfo.startPoint)) fun _ =>
  M.bind (submodulePhase s env) fun _ =>
  M.bind (call (Event.log1 none) env.log1) fun _ =>
  M.bind (call (Event.log1 (some "--format=%H")) env.log1) fun _ =>
  call Event.checkCommitInfo env.checkCommitInfo

/-- The body of the `try` block of `getSource` (src lines 100-258). -/
def getSourceTryBody (s : GitSourceSettings) (env : Env) (g repositoryUrl : String) :
    M Unit :=
  M.bind (call Event.configureAuth env.configureAuth) fun _ =>
  M.bind (determineRef s env g repositoryUrl) fun ref =>
  M.bind
    (if s.lfs then call (Event.lfsInstall g) (env.lfsInstall g) else pure ()) fun _ =>
  M.bind (fetchPhase s env g ref) fun _ =>
  checkoutPhase s env g ref

/-- The `finally` block of `getSource` (src lines 259-266): remove auth unless
credentials are to be persisted. -/
def removeAuthFinally (s : GitSourceSettings) (env : Env) : M Unit :=
  if !s.persistCredentials then
    call Event.removeAuth env.removeAuth
  else
    pure ()

/-- "Initializing the repository" (src lines 80-88): `init` and `remoteAdd`
when no `.git` directory exists yet. -/
def initStep (env : Env) (repositoryUrl : String) : M Unit :=
  if !env.dotGitDirectoryExists then
    M.bind (call Event.gitInit env.gitInit) fun _ =>
    call (Event.remoteAdd "origin" repositoryUrl) env.remoteAdd
  else
    pure ()

/-- The native-client branch of `getSource` (src lines 77-266). -/
def nativePath (s : GitSourceSettings) (env : Env) (g repositoryUrl : String) :
    M Unit :=
  M.bind (call (Event.setRepositoryPath s.repositoryPath) (Except.ok ())) fun _ =>
  M.bind (initStep env repositoryUrl) fun _ =>
  M.bind
    (call Event.tryDisableAutomaticGarbageCollection
      (Except.ok env.tryDisableAutomaticGarbageCollection)) fun _gcDisabled =>
  tryFinallyM (getSourceTryBody s env g repositoryUrl) (removeAuthFinally s env)

instance {ε α : Type} [DecidableEq ε] [DecidableEq α] : DecidableEq (Except ε α) := fun a b =>
  match a, b with
  | Except.ok x, Except.ok y => if h : x = y then isTrue (by rw [h]) else isFalse (by
      intro hc
      exact h (Except.ok.inj hc))
  | Except.error x, Except.error y => if h : x = y then isTrue (by rw [h]) else isFalse (by
      intro hc
      exact h (Except.error.inj hc))
  | Except.ok _, Except.error _ => isFalse (by intro hc; cases hc)
  | Except.error _, Except.ok _ => isFalse (by intro hc; cases hc)

/-- Shallow embedding of `getSource` (src lines 15-267). -/
def getSource (s : GitSourceSettings) (env : Env) : M Unit :=
  let repositoryUrl := getFetchUrl s
  M.bind (if env.fileExists then call Event.rmRF (Except.ok ()) else pure ()) fun _ =>
  M.bind (if !env.directoryExists then call Event.mkdirP (Except.ok ()) else pure ())
    fun _ =>
  M.bind (getGitCommandManager s.repositoryPath s.lfs env) fun git =>
  M.bind
    (if env.directoryExists then call Event.prepareExistingDirectory (Except.ok ())
     else pure ()) fun _ =>
  match git with
  | none => fallbackDownload s env
  | some g => nativePath s env g repositoryUrl

/-- The trace of collaborator calls performed by one `getSource` run. -/
def events (s : GitSourceSettings) (env : Env) : List Event :=
  (getSource s env).1

/-- The result of one `getSource` run. -/
def result (s : GitSourceSettings) (env : Env) : Except Err Unit :=
  (getSource s env).2

/-- All events emitted by a computation satisfy `P`. -/
def Mall {α : Type} (x : M α) (P : Event → Prop) : Prop :=
  ∀ e ∈ x.1, P e

/-- The working-directory path an event acts on, when it is an operation of a
per-directory git manager. -/
def eventPath : Event → Option String
  | Event.createCommandManager p => some p
  | Event.remoteBranchExists p _ => some p
  | Event.lfsInstall p => some p
  | Event.fetch p _ _ => some p
  | Event.getCheckoutInfo p _ _ => some p
  | Event.lfsFetch p _ => some p
  | Event.checkout p _ _ => some p
  | _ => none

def isFetchAt (p : String) : Event → Bool
  | Event.fetch q _ _ => q == p
  | _ => false

def isCheckoutAt (p : String) : Event → Bool
  | Event.checkout q _ _ => q == p
  | _ => false

def isLfsInstallAt (p : String) : Event → Bool
  | Event.lfsInstall q => q == p
  | _ => false

def isLfsFetchAt (p : String) : Event → Bool
  | Event.lfsFetch q _ => q == p
  | _ => false

def isGetCheckoutInfoAt (p : String) : Event → Bool
  | Event.getCheckoutInfo q _ _ => q == p
  | _ => false

def isDownload : Event → Bool
  | Event.downloadRepository _ _ => true
  | _ => false

/-- The ref a fetch event's refspec was built for. -/
def fetchRef : Event → String
  | Event.fetch _ (RefSpec.allHistory r _) _ => r
  | Event.fetch _ (RefSpec.targeted r _) _ => r
  | _ => ""

/-- After the acquisition-method decision, every event either touches no
repository directory, touches the top-level one, or was emitted inside the
per-submodule override loop run on the submodule list the environment
returned. -/
def PathSpecG (s : GitSourceSettings) (env : Env) (g : String) (e : Event) : Prop :=
  eventPath e = none ∨ eventPath e = some g ∨
    ∃ l, env.getSubmodulesList = Except.ok l ∧ e ∈ (submoduleOverrideLoop s env l).1

/-- Events of the filesystem-preparation prefix of `getSource`. -/
def preEvents (env : Env) : List Event :=
  (if env.fileExists then [Event.rmRF] else []) ++
    (if !env.directoryExists then [Event.mkdirP] else [])

/-- Events of the prepare-existing-directory step. -/
def prepEvents (env : Env) : List Event :=
  if env.directoryExists then [Event.prepareExistingDirectory] else []

/-- Kinds of events that can be emitted inside the `try` block of `getSource`:
never an auth removal, a download, a filesystem-preparation step or an
initialization step. -/
def TryBodyKind : Event → Prop := fun e =>
  match e with
  | Event.removeAuth => False
  | Event.downloadRepository _ _ => False
  | Event.rmRF => False
  | Event.mkdirP => False
  | Event.prepareExistingDirectory => False
  | Event.setRepositoryPath _ => False
  | Event.gitInit => False
  | Event.remoteAdd _ _ => False
  | Event.tryDisableAutomaticGarbageCollection => False
  | _ => True

/-- Operations belonging to the native-client acquisition path. -/
def isNativeOp : Event → Bool
  | Event.gitInit => true
  | Event.remoteAdd _ _ => true
  | Event.tryDisableAutomaticGarbageCollection => true
  | Event.configureAuth => true
  | Event.remoteBranchExists _ _ => true
  | Event.getDefaultBranchGit _ => true
  | Event.getDefaultBranchApi => true
  | Event.lfsInstall _ => true
  | Event.fetch _ _ _ => true
  | Event.testRef _ _ => true
  | Event.getCheckoutInfo _ _ _ => true
  | Event.lfsFetch _ _ => true
  | Event.checkout _ _ _ => true
  | Event.configureGlobalAuth => true
  | Event.submoduleSync => true
  | Event.submoduleUpdate => true
  | Event.submoduleForeach => true
  | Event.configureSubmoduleAuth => true
  | Event.getSubmodulesList => true
  | Event.removeGlobalAuth => true
  | Event.log1 _ => true
  | Event.checkCommitInfo => true
  | Event.removeAuth => true
  | _ => false

def isDefaultBranchLookup : Event → Bool
  | Event.getDefaultBranchGit _ => true
  | Event.getDefaultBranchApi => true
  | _ => false

/-- An environment in which every collaborator call succeeds. -/
def envA : Env where
  fileExists := false
  directoryExists := false
  dotGitDirectoryExists := false
  createCommandManager := fun _ => Except.ok ()
  tryDisableAutomaticGarbageCollection := true
  configureAuth := Except.ok ()
  remoteBranchExists := fun _ _ => Except.ok true
  getDefaultBranchGit := Except.ok "main"
  getDefaultBranchApi := Except.ok "main"
  lfsInstall := fun _ => Except.ok ()
  fetch := fun _ _ _ => Except.ok ()
  testRef := fun _ _ => Except.ok true
  getCheckoutInfo := fun _ r _ => Except.ok ⟨r, none⟩
  lfsFetch := fun _ _ => Except.ok ()
  checkout := fun _ _ _ => Except.ok ()
  configureGlobalAuth := Except.ok ()
  submoduleSync := Except.ok ()
  submoduleUpdate := Except.ok ()
  submoduleForeach := Except.ok ()
  configureSubmoduleAuth := Except.ok ()
  getSubmodulesList := Except.ok []
  removeGlobalAuth := Except.ok ()
  gitInit := Except.ok ()
  remoteAdd := Except.ok ()
  log1 := Except.ok ()
  checkCommitInfo := Except.ok ()
  removeAuth := Except.ok ()
  downloadRepository := Except.ok ()

/-- A request for an existing branch ref. -/
def settingsA : GitSourceSettings where
  repositoryOwner := "octo"
  repositoryName := "repo"
  repositoryPath := "work"
  ref := "main"
  commit := ""
  clean := true
  fetchDepth := 0
  lfs := false
  submodules := false
  nestedSubmodules := false
  authToken := "tok"
  sshKey := ""
  persistCredentials := false
  submodulesRemoteBranch := ""

/-- A request with a tag-like ref that is not a remote branch. -/
def settingsC3 : GitSourceSettings :=
  { settingsA with ref := "v1.0.0" }

/-- Environment where no requested ref exists as a remote branch. -/
def envC3 : Env :=
  { envA with remoteBranchExists := fun _ _ => Except.ok false }

/-- Environment in which no git command manager can be constructed. -/
def envNoGit : Env :=
  { envA with createCommandManager := fun _ => Except.error (Err.external 0) }

/-- A request with submodules enabled and a remote-branch override. -/
def settingsSub : GitSourceSettings :=
  { settingsA with
    submodules := true,
    submodulesRemoteBranch := "feature",
    fetchDepth := 1 }

/-- Environment with two submodules, of which only `a` exposes the override
branch on its own remote. -/
def envSub : Env :=
  { envA with
    getSubmodulesList := Except.ok ["a", "b"],
    remoteBranchExists := fun p _ =>
      if p = "work/b" then Except.ok false else Except.ok true }

/-- A request with submodules enabled but no native client and no override. -/
def settingsSubNoGit : GitSourceSettings :=
  { settingsA with submodules := true }

/-- A request asking for LFS support. -/
def settingsLfs : GitSourceSettings :=
  { settingsA with lfs := true }

/-- A request with neither ref nor commit. -/
def settingsDefaultBranch : GitSourceSettings :=
  { settingsA with ref := "" }

/-- Submodule operations: the parent-repository submodule commands, and any
per-directory git operation against a directory other than the top-level
repository (i.e. against a submodule's own working directory). -/
def isSubmoduleOp (s : GitSourceSettings) : Event → Bool
  | Event.submoduleSync => true
  | Event.submoduleUpdate => true
  | Event.submoduleForeach => true
  | Event.configureSubmoduleAuth => true
  | Event.getSubmodulesList => true
  | Event.createCommandManager p => p != s.repositoryPath
  | Event.remoteBranchExists p _ => p != s.repositoryPath
  | Event.lfsInstall p => p != s.repositoryPath
  | Event.fetch p _ _ => p != s.repositoryPath
  | Event.getCheckoutInfo p _ _ => p != s.repositoryPath
  | Event.lfsFetch p _ => p != s.repositoryPath
  | Event.checkout p _ _ => p != s.repositoryPath
  | _ => false

/-- Operations that can only be emitted by the submodule block of `getSource`:
the submodule operations plus the scoped global-auth escalation pair. -/
def isSubmodulePhaseOp (s : GitSourceSettings) (e : Event) : Bool :=
  isSubmoduleOp s e || (e == Event.configureGlobalAuth) || (e == Event.removeGlobalAuth)


/-!
Verification of the source-acquisition orchestrator (`src/git-source-provider.ts`).

The TypeScript function `getSource` coordinates side-effecting collaborators
(git command manager, auth helper, ref helper, GitHub API helper, filesystem
helpers).  We embed it shallowly: every collaborator call is recorded as an
`Event`, and the outcome of each call is supplied by an `Env` (the behaviour of
the external world).  A computation is a pair of the emitted event trace and an
`Except` result, mirroring JavaScript `await`/`throw` semantics including
`try`/`finally` and `try`/`catch`.
-/

/-! ### Basic facts about the computation monad -/

theorem bind_eq_mbind {α β : Type} (x : M α) (f : α → M β) : x >>= f = M.bind x f := rfl

@[simp] theorem pure_eq {α : Type} (a : α) : (pure a : M α) = ([], Except.ok a) := rfl

@[simp] theorem fst_ite {α : Type} {c : Prop} [Decidable c] (x y : M α) :
    (if c then x else y).1 = if c then x.1 else y.1 := by
  split <;> rfl

@[simp] theorem snd_ite {α : Type} {c : Prop} [Decidable c] (x y : M α) :
    (if c then x else y).2 = if c then x.2 else y.2 := by
  split <;> rfl

theorem M.mem_bind {α β : Type} {e : Event} {x : M α} {f : α → M β} :
    e ∈ (M.bind x f).1 ↔ e ∈ x.1 ∨ ∃ a, x.2 = Except.ok a ∧ e ∈ (f a).1 := by
  rcases x with ⟨t, r⟩
  cases r <;> simp [M.bind]

theorem M.bind_snd_ok {α β : Type} {x : M α} {f : α → M β} {b : β} :
    (M.bind x f).2 = Except.ok b ↔ ∃ a, x.2 = Except.ok a ∧ (f a).2 = Except.ok b := by
  rcases x with ⟨t, r⟩
  cases r <;> simp [M.bind]

theorem M.bind_fst_ok {α β : Type} {x : M α} {f : α → M β} {a : α}
    (h : x.2 = Except.ok a) : (M.bind x f).1 = x.1 ++ (f a).1 := by
  rcases x with ⟨t, r⟩
  cases r <;> simp_all [M.bind]

theorem tryFinallyM_fst {α : Type} (body : M α) (fin : M Unit) :
    (tryFinallyM body fin).1 = body.1 ++ fin.1 := by
  rcases body with ⟨t, r⟩
  rcases fin with ⟨t2, r2⟩
  cases r <;> cases r2 <;> rfl

theorem tryFinallyM_snd_ok {α : Type} {body : M α} {fin : M Unit} {a : α} :
    (tryFinallyM body fin).2 = Except.ok a ↔
      body.2 = Except.ok a ∧ fin.2 = Except.ok () := by
  rcases body with ⟨t, r⟩
  rcases fin with ⟨t2, r2⟩
  cases r <;> cases r2 <;> simp [tryFinallyM]

@[simp] theorem mem_call {α : Type} {e ev : Event} {r : Except Err α} :
    e ∈ (call ev r).1 ↔ e = ev := by
  simp [call]

@[simp] theorem mem_throwE {α : Type} {e : Event} {er : Err} :
    e ∈ (throwE (α := α) er).1 ↔ False := by
  simp [throwE]

theorem Mall.bind {α β : Type} {x : M α} {f : α → M β} {P : Event → Prop}
    (hx : Mall x P) (hf : ∀ a, x.2 = Except.ok a → Mall (f a) P) :
    Mall (M.bind x f) P := by
  intro e he
  rcases M.mem_bind.1 he with h | ⟨a, ha, h⟩
  · exact hx e h
  · exact hf a ha e h

theorem Mall.call {ev : Event} {α : Type} {r : Except Err α} {P : Event → Prop}
    (h : P ev) : Mall (call ev r) P := by
  intro e he
  rw [mem_call] at he
  rwa [he]

theorem Mall.pure {α : Type} {a : α} {P : Event → Prop} : Mall (pure a : M α) P := by
  intro e he
  simp at he

theorem Mall.throwE {α : Type} {er : Err} {P : Event → Prop} :
    Mall (throwE (α := α) er) P := by
  intro e he
  simp at he

theorem Mall.ite {α : Type} {c : Prop} [Decidable c] {x y : M α} {P : Event → Prop}
    (hx : c → Mall x P) (hy : ¬c → Mall y P) : Mall (if c then x else y) P := by
  split
  · exact hx ‹c›
  · exact hy ‹¬c›

theorem Mall.tryFinally {α : Type} {body : M α} {fin : M Unit} {P : Event → Prop}
    (hb : Mall body P) (hf : Mall fin P) : Mall (tryFinallyM body fin) P := by
  intro e he
  rw [tryFinallyM_fst] at he
  rcases List.mem_append.1 he with h | h
  · exact hb e h
  · exact hf e h

theorem Mall.tryCatch {α : Type} {body : M α} {handler : Err → M α} {P : Event → Prop}
    (hb : Mall body P)
    (hh : ∀ er, body.2 = Except.error er → Mall (handler er) P) :
    Mall (tryCatchM body handler) P := by
  rcases hbody : body with ⟨t, r⟩
  cases r with
  | ok a =>
    intro e he
    exact hb e (by simpa [hbody, tryCatchM] using he)
  | error er =>
    intro e he
    simp only [tryCatchM] at he
    rcases List.mem_append.1 he with h | h
    · exact hb e (by simp [hbody, h])
    · exact hh er (by simp [hbody]) e h

theorem Mall.mono {α : Type} {x : M α} {P Q : Event → Prop}
    (h : Mall x P) (himp : ∀ e, P e → Q e) : Mall x Q := by
  intro e he
  exact himp e (h e he)

/-! ### Event classification -/

/-! ### Path distinctness -/

theorem subPath_length (s : GitSourceSettings) (sub : String) :
    (subPath s sub).length = s.repositoryPath.length + 1 + sub.length := by
  simp [subPath, String.length_append]
  rfl

theorem subPath_ne_repositoryPath (s : GitSourceSettings) (sub : String) :
    subPath s sub ≠ s.repositoryPath := by
  intro h
  have := congrArg String.length h
  rw [subPath_length] at this
  omega

theorem subPath_injective (s : GitSourceSettings) {a b : String}
    (h : subPath s a = subPath s b) : a = b := by
  have hd := congrArg String.data h
  simp only [subPath, String.data_append] at hd
  have := List.append_cancel_left hd
  exact String.ext this

/-! ### Computation of `getGitCommandManager` -/

theorem getGitCommandManager_ok {p : String} {env : Env} (lfs : Bool)
    (h : env.createCommandManager p = Except.ok ()) :
    getGitCommandManager p lfs env =
      ([Event.createCommandManager p], Except.ok (some p)) := by
  unfold getGitCommandManager createCommandManager
  simp [tryCatchM, call, bind_eq_mbind, M.bind, h, Except.map]

theorem getGitCommandManager_error_lfs {p : String} {env : Env} {er : Err}
    (h : env.createCommandManager p = Except.error er) :
    getGitCommandManager p true env =
      ([Event.createCommandManager p], Except.error er) := by
  unfold getGitCommandManager createCommandManager
  simp [tryCatchM, call, bind_eq_mbind, M.bind, h, Except.map, throwE]

theorem getGitCommandManager_error_nolfs {p : String} {env : Env} {er : Err}
    (h : env.createCommandManager p = Except.error er) :
    getGitCommandManager p false env =
      ([Event.createCommandManager p], Except.ok none) := by
  unfold getGitCommandManager createCommandManager
  simp [tryCatchM, call, bind_eq_mbind, M.bind, h, Except.map]

theorem getGitCommandManager_snd_some {p q : String} {lfs : Bool} {env : Env}
    (h : (getGitCommandManager p lfs env).2 = Except.ok (some q)) : q = p := by
  rcases hc : env.createCommandManager p with er | u
  · cases lfs
    · rw [getGitCommandManager_error_nolfs hc] at h
      simp at h
    · rw [getGitCommandManager_error_lfs hc] at h
      simp at h
  · cases u
    rw [getGitCommandManager_ok lfs hc] at h
    simpa using h.symm

theorem Mall_getGitCommandManager (p : String) (lfs : Bool) (env : Env) :
    Mall (getGitCommandManager p lfs env)
      (fun e => e = Event.createCommandManager p) := by
  rcases hc : env.createCommandManager p with er | u
  · cases lfs
    · rw [getGitCommandManager_error_nolfs hc]
      intro e he
      simpa using he
    · rw [getGitCommandManager_error_lfs hc]
      intro e he
      simpa using he
  · cases u
    rw [getGitCommandManager_ok lfs hc]
    intro e he
    simpa using he

/-! ### Which paths each part of the run can touch -/

theorem Mall_overrideUpdate (s : GitSourceSettings) (env : Env) (sg : String) :
    Mall (overrideUpdate s env sg) (fun e => eventPath e = some sg) := by
  unfold overrideUpdate
  refine Mall.bind (Mall.ite (fun _ => Mall.call rfl) fun _ => Mall.pure) fun _ _ => ?_
  refine Mall.bind (Mall.ite (fun _ => Mall.call rfl) fun _ => Mall.pure) fun _ _ => ?_
  refine Mall.bind (Mall.call rfl) fun ci _ => ?_
  refine Mall.bind (Mall.ite (fun _ => Mall.call rfl) fun _ => Mall.pure) fun _ _ => ?_
  exact Mall.call rfl

theorem Mall_overrideIter (s : GitSourceSettings) (env : Env) (sub : String) :
    Mall (overrideIter s env sub) (fun e => eventPath e = some (subPath s sub)) := by
  unfold overrideIter
  refine Mall.bind (Mall.mono (Mall_getGitCommandManager _ _ _) ?_) fun a ha => ?_
  · intro e he
    rw [he]
    rfl
  · cases a with
    | none => exact Mall.pure
    | some sg =>
      have hsg : sg = subPath s sub := getGitCommandManager_snd_some ha
      subst hsg
      refine Mall.bind (Mall.call rfl) fun b _ => ?_
      exact Mall.ite (fun _ => Mall_overrideUpdate s env _) fun _ => Mall.pure

theorem Mall_submoduleOverrideLoop (s : GitSourceSettings) (env : Env) (l : List String) :
    Mall (submoduleOverrideLoop s env l)
      (fun e => ∃ sub ∈ l, eventPath e = some (subPath s sub)) := by
  induction l with
  | nil => exact Mall.pure
  | cons sub rest ih =>
    simp only [submoduleOverrideLoop]
    refine Mall.bind (Mall.mono (Mall_overrideIter s env sub) ?_) fun _ _ => Mall.mono ih ?_
    · intro e he
      exact ⟨sub, by simp, he⟩
    · rintro e ⟨t, ht, hp⟩
      exact ⟨t, by simp [ht], hp⟩

theorem Mall_submodulePhase (s : GitSourceSettings) (env : Env) :
    Mall (submodulePhase s env)
      (fun e => eventPath e = none ∨
        ∃ l, env.getSubmodulesList = Except.ok l ∧
          e ∈ (submoduleOverrideLoop s env l).1) := by
  unfold submodulePhase
  refine Mall.ite (fun _ => ?_) fun _ => Mall.pure
  refine Mall.tryFinally ?_ (Mall.call (Or.inl rfl))
  refine Mall.bind (Mall.call (Or.inl rfl)) fun _ _ => ?_
  refine Mall.bind (Mall.call (Or.inl rfl)) fun _ _ => ?_
  refine Mall.bind (Mall.call (Or.inl rfl)) fun _ _ => ?_
  refine Mall.bind (Mall.call (Or.inl rfl)) fun _ _ => ?_
  refine Mall.bind (Mall.ite (fun _ => Mall.call (Or.inl rfl)) fun _ => Mall.pure)
    fun _ _ => ?_
  refine Mall.ite (fun _ => ?_) fun _ => Mall.pure
  refine Mall.bind (Mall.call (Or.inl rfl)) fun l hl => ?_
  exact fun e he => Or.inr ⟨l, by simpa [call] using hl, he⟩

theorem Mall_checkoutPhase (s : GitSourceSettings) (env : Env) (g ref : String) :
    Mall (checkoutPhase s env g ref) (PathSpecG s env g) := by
  unfold checkoutPhase
  refine Mall.bind (Mall.call (Or.inr (Or.inl rfl))) fun ci _ => ?_
  refine Mall.bind (Mall.ite (fun _ => Mall.call (Or.inr (Or.inl rfl))) fun _ => Mall.pure)
    fun _ _ => ?_
  refine Mall.bind (Mall.call (Or.inr (Or.inl rfl))) fun _ _ => ?_
  refine Mall.bind (Mall.mono (Mall_submodulePhase s env) ?_) fun _ _ => ?_
  · rintro e (h | h)
    · exact Or.inl h
    · exact Or.inr (Or.inr h)
  refine Mall.bind (Mall.call (Or.inl rfl)) fun _ _ => ?_
  refine Mall.bind (Mall.call (Or.inl rfl)) fun _ _ => ?_
  exact Mall.call (Or.inl rfl)

theorem Mall_determineRef (s : GitSourceSettings) (env : Env) (g u : String) :
    Mall (determineRef s env g u) (PathSpecG s env g) := by
  unfold determineRef shouldDetermineDefaultBranch
  refine Mall.bind ?_ fun cond _ => ?_
  · refine Mall.ite (fun _ => Mall.pure) fun _ => ?_
    refine Mall.ite (fun _ => ?_) fun _ => Mall.pure
    refine Mall.bind (Mall.call (Or.inr (Or.inl rfl))) fun _ _ => Mall.pure
  · refine Mall.ite (fun _ => ?_) fun _ => Mall.pure
    exact Mall.ite (fun _ => Mall.call (Or.inl rfl)) fun _ => Mall.call (Or.inl rfl)

theorem Mall_fetchPhase (s : GitSourceSettings) (env : Env) (g ref : String) :
    Mall (fetchPhase s env g ref) (PathSpecG s env g) := by
  unfold fetchPhase
  refine Mall.ite (fun _ => ?_) fun _ => Mall.call (Or.inr (Or.inl rfl))
  refine Mall.bind (Mall.call (Or.inr (Or.inl rfl))) fun _ _ => ?_
  refine Mall.bind (Mall.call (Or.inl rfl)) fun _ _ => ?_
  exact Mall.ite (fun _ => Mall.call (Or.inr (Or.inl rfl))) fun _ => Mall.pure

theorem Mall_getSourceTryBody (s : GitSourceSettings) (env : Env) (g u : String) :
    Mall (getSourceTryBody s env g u) (PathSpecG s env g) := by
  unfold getSourceTryBody
  refine Mall.bind (Mall.call (Or.inl rfl)) fun _ _ => ?_
  refine Mall.bind (Mall_determineRef s env g u) fun ref _ => ?_
  refine Mall.bind (Mall.ite (fun _ => Mall.call (Or.inr (Or.inl rfl))) fun _ => Mall.pure)
    fun _ _ => ?_
  refine Mall.bind (Mall_fetchPhase s env g ref) fun _ _ => ?_
  exact Mall_checkoutPhase s env g ref

theorem Mall_nativePath (s : GitSourceSettings) (env : Env) (g u : String) :
    Mall (nativePath s env g u) (PathSpecG s env g) := by
  unfold nativePath initStep
  refine Mall.bind (Mall.call (Or.inl rfl)) fun _ _ => ?_
  refine Mall.bind ?_ fun _ _ => ?_
  · refine Mall.ite (fun _ => ?_) fun _ => Mall.pure
    exact Mall.bind (Mall.call (Or.inl rfl)) fun _ _ => Mall.call (Or.inl rfl)
  refine Mall.bind (Mall.call (Or.inl rfl)) fun _ _ => ?_
  refine Mall.tryFinally (Mall_getSourceTryBody s env g u) ?_
  unfold removeAuthFinally
  exact Mall.ite (fun _ => Mall.call (Or.inl rfl)) fun _ => Mall.pure

theorem Mall_fallbackDownload (s : GitSourceSettings) (env : Env) :
    Mall (fallbackDownload s env) (fun e => eventPath e = none) := by
  unfold fallbackDownload
  refine Mall.bind ?_ fun _ _ => Mall.call rfl
  refine Mall.ite (fun _ => Mall.throwE) fun _ => ?_
  exact Mall.ite (fun _ => Mall.throwE) fun _ => Mall.pure

/-- Every event of a `getSource` run either touches no repository directory,
touches `settings.repositoryPath`, or comes from the submodule override loop. -/
theorem events_path (s : GitSourceSettings) (env : Env) :
    ∀ e ∈ events s env, PathSpecG s env s.repositoryPath e := by
  have : Mall (getSource s env) (PathSpecG s env s.repositoryPath) := by
    unfold getSource
    refine Mall.bind (Mall.ite (fun _ => Mall.call (Or.inl rfl)) fun _ => Mall.pure)
      fun _ _ => ?_
    refine Mall.bind (Mall.ite (fun _ => Mall.call (Or.inl rfl)) fun _ => Mall.pure)
      fun _ _ => ?_
    refine Mall.bind (Mall.mono (Mall_getGitCommandManager _ _ _) ?_) fun git hgit => ?_
    · intro e he
      rw [he]
      exact Or.inr (Or.inl rfl)
    refine Mall.bind (Mall.ite (fun _ => Mall.call (Or.inl rfl)) fun _ => Mall.pure)
      fun _ _ => ?_
    cases git with
    | none => exact Mall.mono (Mall_fallbackDownload s env) fun e he => Or.inl he
    | some g =>
      have hg : g = s.repositoryPath := getGitCommandManager_snd_some hgit
      subst hg
      exact Mall_nativePath s env _ _
  exact this

/-! ### Top-level computation lemmas -/

@[simp] theorem mem_ite_list {c : Prop} [Decidable c] {e : Event} {l1 l2 : List Event} :
    (e ∈ if c then l1 else l2) ↔ (c ∧ e ∈ l1) ∨ (¬c ∧ e ∈ l2) := by
  split <;> simp_all

theorem M.bind_eq_ok {α β : Type} {x : M α} {f : α → M β} {a : α}
    (h : x.2 = Except.ok a) : M.bind x f = (x.1 ++ (f a).1, (f a).2) := by
  rcases x with ⟨t, r⟩
  cases r <;> simp_all [M.bind]

theorem getSource_native (s : GitSourceSettings) (env : Env)
    (h : env.createCommandManager s.repositoryPath = Except.ok ()) :
    getSource s env =
      (preEvents env ++ [Event.createCommandManager s.repositoryPath] ++ prepEvents env
         ++ (nativePath s env s.repositoryPath (getFetchUrl s)).1,
       (nativePath s env s.repositoryPath (getFetchUrl s)).2) := by
  unfold getSource
  rw [getGitCommandManager_ok s.lfs h]
  rcases hfe : env.fileExists <;> rcases hde : env.directoryExists <;>
    simp [M.bind, call, preEvents, prepEvents, hfe, hde]

theorem getSource_create_error (s : GitSourceSettings) (env : Env) {er : Err}
    (h : env.createCommandManager s.repositoryPath = Except.error er)
    (hlfs : s.lfs = true) :
    getSource s env =
      (preEvents env ++ [Event.createCommandManager s.repositoryPath],
       Except.error er) := by
  unfold getSource
  rw [hlfs, getGitCommandManager_error_lfs h]
  rcases hfe : env.fileExists <;> rcases hde : env.directoryExists <;>
    simp [M.bind, call, preEvents, hfe, hde]

theorem getSource_fallback (s : GitSourceSettings) (env : Env) {er : Err}
    (h : env.createCommandManager s.repositoryPath = Except.error er)
    (hlfs : s.lfs = false) :
    getSource s env =
      (preEvents env ++ [Event.createCommandManager s.repositoryPath] ++ prepEvents env
         ++ (fallbackDownload s env).1,
       (fallbackDownload s env).2) := by
  unfold getSource
  rw [hlfs, getGitCommandManager_error_nolfs h]
  rcases hfe : env.fileExists <;> rcases hde : env.directoryExists <;>
    simp [M.bind, call, preEvents, prepEvents, hfe, hde]

theorem fallbackDownload_submodules {s : GitSourceSettings} (env : Env)
    (h : s.submodules = true) :
    fallbackDownload s env = ([], Except.error Err.submodulesNotSupported) := by
  simp [fallbackDownload, h, throwE, M.bind]

theorem fallbackDownload_sshKey {s : GitSourceSettings} (env : Env)
    (h1 : s.submodules = false) (h2 : s.sshKey.isEmpty = false) :
    fallbackDownload s env = ([], Except.error Err.sshKeyNotSupported) := by
  simp [fallbackDownload, h1, h2, throwE, M.bind]

theorem fallbackDownload_download {s : GitSourceSettings} (env : Env)
    (h1 : s.submodules = false) (h2 : s.sshKey.isEmpty = true) :
    fallbackDownload s env =
      ([Event.downloadRepository s.ref s.commit], env.downloadRepository) := by
  simp [fallbackDownload, h1, h2, call, M.bind]

theorem mem_fallbackDownload {s : GitSourceSettings} {env : Env} {e : Event}
    (h : e ∈ (fallbackDownload s env).1) :
    e = Event.downloadRepository s.ref s.commit := by
  rcases hs : s.submodules
  · rcases hk : s.sshKey.isEmpty
    · rw [fallbackDownload_sshKey env hs hk] at h
      simp at h
    · rw [fallbackDownload_download env hs hk] at h
      simpa using h
  · rw [fallbackDownload_submodules env hs] at h
    simp at h

theorem not_mem_loop_pathless {s : GitSourceSettings} {env : Env} {l : List String}
    {e : Event} (he : eventPath e = none) :
    e ∉ (submoduleOverrideLoop s env l).1 := by
  intro h
  obtain ⟨sub, _, hp⟩ := Mall_submoduleOverrideLoop s env l e h
  rw [he] at hp
  cases hp

@[simp] theorem removeAuth_not_mem_loop {s : GitSourceSettings} {env : Env}
    {l : List String} : Event.removeAuth ∉ (submoduleOverrideLoop s env l).1 :=
  not_mem_loop_pathless rfl

@[simp] theorem configureAuth_not_mem_loop {s : GitSourceSettings} {env : Env}
    {l : List String} : Event.configureAuth ∉ (submoduleOverrideLoop s env l).1 :=
  not_mem_loop_pathless rfl

@[simp] theorem download_not_mem_loop {s : GitSourceSettings} {env : Env}
    {l : List String} {r c : String} :
    Event.downloadRepository r c ∉ (submoduleOverrideLoop s env l).1 :=
  not_mem_loop_pathless rfl

@[simp] theorem configureSubmoduleAuth_not_mem_loop {s : GitSourceSettings} {env : Env}
    {l : List String} : Event.configureSubmoduleAuth ∉ (submoduleOverrideLoop s env l).1 :=
  not_mem_loop_pathless rfl

@[simp] theorem getDefaultBranchApi_not_mem_loop {s : GitSourceSettings} {env : Env}
    {l : List String} : Event.getDefaultBranchApi ∉ (submoduleOverrideLoop s env l).1 :=
  not_mem_loop_pathless rfl

@[simp] theorem getDefaultBranchGit_not_mem_loop {s : GitSourceSettings} {env : Env}
    {l : List String} {u : String} :
    Event.getDefaultBranchGit u ∉ (submoduleOverrideLoop s env l).1 :=
  not_mem_loop_pathless rfl

theorem configureAuth_mem_tryBody (s : GitSourceSettings) (env : Env) (g u : String) :
    Event.configureAuth ∈ (getSourceTryBody s env g u).1 := by
  simp [getSourceTryBody, M.mem_bind, mem_call]

/-! ### Kinds of events the `try` body can emit -/

theorem TryBodyKind_of_path {e : Event} {p : String} (h : eventPath e = some p) :
    TryBodyKind e := by
  cases e <;> simp_all [eventPath, TryBodyKind]

theorem Mall_determineRef_kind (s : GitSourceSettings) (env : Env) (g u : String) :
    Mall (determineRef s env g u) TryBodyKind := by
  unfold determineRef shouldDetermineDefaultBranch
  refine Mall.bind ?_ fun cond _ => ?_
  · refine Mall.ite (fun _ => Mall.pure) fun _ => ?_
    refine Mall.ite (fun _ => ?_) fun _ => Mall.pure
    exact Mall.bind (Mall.call trivial) fun _ _ => Mall.pure
  · refine Mall.ite (fun _ => ?_) fun _ => Mall.pure
    exact Mall.ite (fun _ => Mall.call trivial) fun _ => Mall.call trivial

theorem Mall_fetchPhase_kind (s : GitSourceSettings) (env : Env) (g ref : String) :
    Mall (fetchPhase s env g ref) TryBodyKind := by
  unfold fetchPhase
  refine Mall.ite (fun _ => ?_) fun _ => Mall.call trivial
  refine Mall.bind (Mall.call trivial) fun _ _ => ?_
  refine Mall.bind (Mall.call trivial) fun _ _ => ?_
  exact Mall.ite (fun _ => Mall.call trivial) fun _ => Mall.pure

theorem Mall_submodulePhase_kind (s : GitSourceSettings) (env : Env) :
    Mall (submodulePhase s env) TryBodyKind := by
  unfold submodulePhase
  refine Mall.ite (fun _ => ?_) fun _ => Mall.pure
  refine Mall.tryFinally ?_ (Mall.call trivial)
  refine Mall.bind (Mall.call trivial) fun _ _ => ?_
  refine Mall.bind (Mall.call trivial) fun _ _ => ?_
  refine Mall.bind (Mall.call trivial) fun _ _ => ?_
  refine Mall.bind (Mall.call trivial) fun _ _ => ?_
  refine Mall.bind (Mall.ite (fun _ => Mall.call trivial) fun _ => Mall.pure) fun _ _ => ?_
  refine Mall.ite (fun _ => ?_) fun _ => Mall.pure
  refine Mall.bind (Mall.call trivial) fun l _ => ?_
  refine Mall.mono (Mall_submoduleOverrideLoop s env l) ?_
  rintro e ⟨sub, _, hp⟩
  exact TryBodyKind_of_path hp

theorem Mall_checkoutPhase_kind (s : GitSourceSettings) (env : Env) (g ref : String) :
    Mall (checkoutPhase s env g ref) TryBodyKind := by
  unfold checkoutPhase
  refine Mall.bind (Mall.call trivial) fun ci _ => ?_
  refine Mall.bind (Mall.ite (fun _ => Mall.call trivial) fun _ => Mall.pure) fun _ _ => ?_
  refine Mall.bind (Mall.call trivial) fun _ _ => ?_
  refine Mall.bind (Mall_submodulePhase_kind s env) fun _ _ => ?_
  refine Mall.bind (Mall.call trivial) fun _ _ => ?_
  refine Mall.bind (Mall.call trivial) fun _ _ => ?_
  exact Mall.call trivial

theorem Mall_tryBody_kind (s : GitSourceSettings) (env : Env) (g u : String) :
    Mall (getSourceTryBody s env g u) TryBodyKind := by
  unfold getSourceTryBody
  refine Mall.bind (Mall.call trivial) fun _ _ => ?_
  refine Mall.bind (Mall_determineRef_kind s env g u) fun ref _ => ?_
  refine Mall.bind (Mall.ite (fun _ => Mall.call trivial) fun _ => Mall.pure) fun _ _ => ?_
  refine Mall.bind (Mall_fetchPhase_kind s env g ref) fun _ _ => ?_
  exact Mall_checkoutPhase_kind s env g ref

/-! ### Membership structure of the native-client branch -/

theorem mem_initStep {e : Event} {env : Env} {u : String}
    (h : e ∈ (initStep env u).1) :
    e = Event.gitInit ∨ e = Event.remoteAdd "origin" u := by
  unfold initStep at h
  rcases hd : env.dotGitDirectoryExists
  · simp [hd, M.mem_bind, mem_call] at h
    tauto
  · simp [hd] at h

theorem mem_removeAuthFinally {e : Event} {s : GitSourceSettings} {env : Env}
    (h : e ∈ (removeAuthFinally s env).1) :
    e = Event.removeAuth ∧ s.persistCredentials = false := by
  unfold removeAuthFinally at h
  rcases hp : s.persistCredentials <;> simp [hp, mem_call] at h
  · exact ⟨h, rfl⟩

theorem removeAuth_mem_removeAuthFinally {s : GitSourceSettings} {env : Env}
    (hp : s.persistCredentials = false) :
    Event.removeAuth ∈ (removeAuthFinally s env).1 := by
  simp [removeAuthFinally, hp, mem_call]

theorem nativePath_mem_cases {e : Event} {s : GitSourceSettings} {env : Env}
    {g u : String} (h : e ∈ (nativePath s env g u).1) :
    e = Event.setRepositoryPath s.repositoryPath ∨
    e ∈ (initStep env u).1 ∨
    e = Event.tryDisableAutomaticGarbageCollection ∨
    ((initStep env u).2 = Except.ok () ∧
      (e ∈ (getSourceTryBody s env g u).1 ∨ e ∈ (removeAuthFinally s env).1)) := by
  unfold nativePath at h
  rw [M.mem_bind] at h
  rcases h with h | ⟨a, ha, h⟩
  · left
    simpa using h
  · rw [M.mem_bind] at h
    rcases h with h | ⟨b, hb, h⟩
    · exact Or.inr (Or.inl h)
    · rw [M.mem_bind] at h
      rcases h with h | ⟨c, hc, h⟩
      · right; right; left
        simpa using h
      · cases b
        rw [tryFinallyM_fst, List.mem_append] at h
        exact Or.inr (Or.inr (Or.inr ⟨hb, h⟩))

theorem nativePath_mem_of_try {e : Event} {s : GitSourceSettings} {env : Env}
    {g u : String} (hb : (initStep env u).2 = Except.ok ())
    (h : e ∈ (getSourceTryBody s env g u).1 ∨ e ∈ (removeAuthFinally s env).1) :
    e ∈ (nativePath s env g u).1 := by
  unfold nativePath
  rw [M.mem_bind]
  refine Or.inr ⟨(), rfl, ?_⟩
  rw [M.mem_bind]
  refine Or.inr ⟨(), hb, ?_⟩
  rw [M.mem_bind]
  refine Or.inr ⟨env.tryDisableAutomaticGarbageCollection, rfl, ?_⟩
  rw [tryFinallyM_fst, List.mem_append]
  exact h

/-! ### Trace/result of `getSource` by acquisition branch -/

theorem events_native (s : GitSourceSettings) (env : Env)
    (h : env.createCommandManager s.repositoryPath = Except.ok ()) :
    events s env =
      preEvents env ++ [Event.createCommandManager s.repositoryPath] ++ prepEvents env
        ++ (nativePath s env s.repositoryPath (getFetchUrl s)).1 := by
  rw [events, getSource_native s env h]

theorem result_native (s : GitSourceSettings) (env : Env)
    (h : env.createCommandManager s.repositoryPath = Except.ok ()) :
    result s env = (nativePath s env s.repositoryPath (getFetchUrl s)).2 := by
  rw [result, getSource_native s env h]

theorem events_fallback (s : GitSourceSettings) (env : Env) {er : Err}
    (h : env.createCommandManager s.repositoryPath = Except.error er)
    (hlfs : s.lfs = false) :
    events s env =
      preEvents env ++ [Event.createCommandManager s.repositoryPath] ++ prepEvents env
        ++ (fallbackDownload s env).1 := by
  rw [events, getSource_fallback s env h hlfs]

theorem result_fallback (s : GitSourceSettings) (env : Env) {er : Err}
    (h : env.createCommandManager s.repositoryPath = Except.error er)
    (hlfs : s.lfs = false) :
    result s env = (fallbackDownload s env).2 := by
  rw [result, getSource_fallback s env h hlfs]

theorem events_create_error (s : GitSourceSettings) (env : Env) {er : Err}
    (h : env.createCommandManager s.repositoryPath = Except.error er)
    (hlfs : s.lfs = true) :
    events s env = preEvents env ++ [Event.createCommandManager s.repositoryPath] := by
  rw [events, getSource_create_error s env h hlfs]

theorem result_create_error (s : GitSourceSettings) (env : Env) {er : Err}
    (h : env.createCommandManager s.repositoryPath = Except.error er)
    (hlfs : s.lfs = true) :
    result s env = Except.error er := by
  rw [result, getSource_create_error s env h hlfs]

/-! ### Claim C1 -/

theorem nativePath_configureAuth_removeAuth {s : GitSourceSettings} {env : Env}
    {g u : String} (hp : s.persistCredentials = false)
    (h : Event.configureAuth ∈ (nativePath s env g u).1) :
    Event.removeAuth ∈ (nativePath s env g u).1 := by
  rcases nativePath_mem_cases h with h1 | h1 | h1 | ⟨hb, _⟩
  · simp at h1
  · rcases mem_initStep h1 with h2 | h2 <;> simp at h2
  · simp at h1
  · exact nativePath_mem_of_try hb (Or.inr (removeAuth_mem_removeAuthFinally hp))

theorem nativePath_no_removeAuth {s : GitSourceSettings} {env : Env} {g u : String}
    (hp : s.persistCredentials = true) :
    Event.removeAuth ∉ (nativePath s env g u).1 := by
  intro h
  rcases nativePath_mem_cases h with h1 | h1 | h1 | ⟨_, h1 | h1⟩
  · simp at h1
  · rcases mem_initStep h1 with h2 | h2 <;> simp at h2
  · simp at h1
  · exact Mall_tryBody_kind s env g u Event.removeAuth h1
  · exact absurd (mem_removeAuthFinally h1).2 (by simp [hp])

theorem nativePath_snd_ok {s : GitSourceSettings} {env : Env} {g u : String}
    (h : (nativePath s env g u).2 = Except.ok ()) :
    (initStep env u).2 = Except.ok () ∧
      (getSourceTryBody s env g u).2 = Except.ok () ∧
      (removeAuthFinally s env).2 = Except.ok () := by
  unfold nativePath at h
  rw [M.bind_snd_ok] at h
  obtain ⟨a, ha, h⟩ := h
  rw [M.bind_snd_ok] at h
  obtain ⟨b, hb, h⟩ := h
  rw [M.bind_snd_ok] at h
  obtain ⟨c, hc, h⟩ := h
  cases b
  rw [tryFinallyM_snd_ok] at h
  exact ⟨hb, h.1, h.2⟩

/-- Claim C1: when `persistCredentials` is false, `removeAuth` runs on every
exit path of the native-client acquisition that passed `configureAuth`
(normal completion included, since a successful native run always invokes
`configureAuth`); when `persistCredentials` is true, `getSource` never invokes
`removeAuth`. -/
theorem C1_auth_removal (s : GitSourceSettings) (env : Env) :
    (s.persistCredentials = false →
      Event.configureAuth ∈ events s env → Event.removeAuth ∈ events s env) ∧
    (s.persistCredentials = true → Event.removeAuth ∉ events s env) ∧
    (env.createCommandManager s.repositoryPath = Except.ok () →
      result s env = Except.ok () → Event.configureAuth ∈ events s env) := by
  refine ⟨?_, ?_, ?_⟩
  · intro hp hmem
    rcases hc : env.createCommandManager s.repositoryPath with er | u2
    · rcases hlfs : s.lfs
      · rw [events_fallback s env hc hlfs] at hmem ⊢
        simp [preEvents, prepEvents] at hmem
        exact absurd (mem_fallbackDownload hmem) (by simp)
      · rw [events_create_error s env hc hlfs] at hmem
        simp [preEvents] at hmem
    · cases u2
      rw [events_native s env hc] at hmem ⊢
      simp only [List.mem_append] at hmem ⊢
      have hmem2 :
          Event.configureAuth ∈ (nativePath s env s.repositoryPath (getFetchUrl s)).1 := by
        rcases hmem with ((h | h) | h) | h
        · simp [preEvents] at h
        · simp at h
        · simp [prepEvents] at h
        · exact h
      exact Or.inr (nativePath_configureAuth_removeAuth hp hmem2)
  · intro hp hmem
    rcases hc : env.createCommandManager s.repositoryPath with er | u2
    · rcases hlfs : s.lfs
      · rw [events_fallback s env hc hlfs] at hmem
        simp [preEvents, prepEvents] at hmem
        exact absurd (mem_fallbackDownload hmem) (by simp)
      · rw [events_create_error s env hc hlfs] at hmem
        simp [preEvents] at hmem
    · cases u2
      rw [events_native s env hc] at hmem
      simp only [List.mem_append] at hmem
      rcases hmem with ((h | h) | h) | h
      · simp [preEvents] at h
      · simp at h
      · simp [prepEvents] at h
      · exact nativePath_no_removeAuth hp h
  · intro hc hres
    rw [result_native s env hc] at hres
    obtain ⟨hinit, hbody, hfin⟩ := nativePath_snd_ok hres
    rw [events_native s env hc]
    simp only [List.mem_append]
    exact Or.inr (nativePath_mem_of_try hinit (Or.inl (configureAuth_mem_tryBody s env _ _)))

/-! ### Claims C4 and C5 -/

theorem preEvents_kind {env : Env} {e : Event} (he : e ∈ preEvents env) :
    e = Event.rmRF ∨ e = Event.mkdirP := by
  simp [preEvents] at he
  tauto

theorem prepEvents_kind {env : Env} {e : Event} (he : e ∈ prepEvents env) :
    e = Event.prepareExistingDirectory := by
  simp [prepEvents] at he
  tauto

/-- Claim C4: on the fallback path (no native client), requesting submodules or
an SSH key is a fatal configuration error raised before `downloadRepository`
is ever invoked. -/
theorem C4_fallback_conflicts (s : GitSourceSettings) (env : Env) {er : Err}
    (hc : env.createCommandManager s.repositoryPath = Except.error er)
    (hlfs : s.lfs = false) :
    (s.submodules = true →
      result s env = Except.error Err.submodulesNotSupported ∧
      ∀ e ∈ events s env, isDownload e = false) ∧
    (s.submodules = false → s.sshKey.isEmpty = false →
      result s env = Except.error Err.sshKeyNotSupported ∧
      ∀ e ∈ events s env, isDownload e = false) := by
  constructor
  · intro hsub
    refine ⟨by rw [result_fallback s env hc hlfs, fallbackDownload_submodules env hsub], ?_⟩
    intro e he
    rw [events_fallback s env hc hlfs, fallbackDownload_submodules env hsub] at he
    simp only [List.append_nil, List.mem_append] at he
    rcases he with (h | h) | h
    · rcases preEvents_kind h with rfl | rfl <;> rfl
    · simp only [List.mem_singleton] at h
      subst h
      rfl
    · rw [prepEvents_kind h]
      rfl
  · intro hsub hkey
    refine ⟨by rw [result_fallback s env hc hlfs, fallbackDownload_sshKey env hsub hkey], ?_⟩
    intro e he
    rw [events_fallback s env hc hlfs, fallbackDownload_sshKey env hsub hkey] at he
    simp only [List.append_nil, List.mem_append] at he
    rcases he with (h | h) | h
    · rcases preEvents_kind h with rfl | rfl <;> rfl
    · simp only [List.mem_singleton] at h
      subst h
      rfl
    · rw [prepEvents_kind h]
      rfl

/-- Claim C5: a git-command-manager construction failure is re-raised
(fatally) when LFS was requested — never silently swallowed — and otherwise
yields "no native client", deterministically taking the archive-download
path. -/
theorem C5_manager_failure (s : GitSourceSettings) (env : Env) {er : Err}
    (hc : env.createCommandManager s.repositoryPath = Except.error er) :
    (s.lfs = true →
      (getGitCommandManager s.repositoryPath s.lfs env).2 = Except.error er ∧
      result s env = Except.error er ∧
      Event.configureAuth ∉ events s env) ∧
    (s.lfs = false →
      (getGitCommandManager s.repositoryPath s.lfs env).2 = Except.ok none ∧
      Event.configureAuth ∉ events s env ∧
      (s.submodules = false → s.sshKey.isEmpty = true →
        Event.downloadRepository s.ref s.commit ∈ events s env)) := by
  constructor
  · intro hlfs
    refine ⟨by rw [hlfs, getGitCommandManager_error_lfs hc], result_create_error s env hc hlfs, ?_⟩
    intro hmem
    rw [events_create_error s env hc hlfs] at hmem
    simp [preEvents] at hmem
  · intro hlfs
    refine ⟨by rw [hlfs, getGitCommandManager_error_nolfs hc], ?_, ?_⟩
    · intro hmem
      rw [events_fallback s env hc hlfs] at hmem
      simp only [List.mem_append] at hmem
      rcases hmem with ((h | h) | h) | h
      · rcases preEvents_kind h with h2 | h2 <;> simp at h2
      · simp at h
      · exact absurd (prepEvents_kind h) (by simp)
      · exact absurd (mem_fallbackDownload h) (by simp)
    · intro hsub hkey
      rw [events_fallback s env hc hlfs, fallbackDownload_download env hsub hkey]
      simp

/-! ### Claim C9 -/

theorem TryBodyKind_no_download {e : Event} (h : TryBodyKind e) :
    isDownload e = false := by
  cases e <;> simp_all [TryBodyKind, isDownload]

theorem nativePath_no_download {s : GitSourceSettings} {env : Env} {g u : String} :
    ∀ e ∈ (nativePath s env g u).1, isDownload e = false := by
  intro e he
  rcases nativePath_mem_cases he with h | h | h | ⟨_, h | h⟩
  · subst h
    rfl
  · rcases mem_initStep h with rfl | rfl <;> rfl
  · subst h
    rfl
  · exact TryBodyKind_no_download (Mall_tryBody_kind s env g u e h)
  · rw [(mem_removeAuthFinally h).1]
    rfl

theorem checkoutPhase_ok_checkout {s : GitSourceSettings} {env : Env} {g ref : String}
    (h : (checkoutPhase s env g ref).2 = Except.ok ()) :
    ∃ r sp, Event.checkout g r sp ∈ (checkoutPhase s env g ref).1 := by
  unfold checkoutPhase at h ⊢
  rw [M.bind_snd_ok] at h
  obtain ⟨ci, hci, h⟩ := h
  refine ⟨ci.ref, ci.startPoint, ?_⟩
  rw [M.mem_bind]
  refine Or.inr ⟨ci, hci, ?_⟩
  rw [M.bind_snd_ok] at h
  obtain ⟨a, ha, h⟩ := h
  rw [M.mem_bind]
  refine Or.inr ⟨a, ha, ?_⟩
  rw [M.mem_bind]
  exact Or.inl (by simp)

theorem tryBody_ok_checkout {s : GitSourceSettings} {env : Env} {g u : String}
    (h : (getSourceTryBody s env g u).2 = Except.ok ()) :
    ∃ r sp, Event.checkout g r sp ∈ (getSourceTryBody s env g u).1 := by
  unfold getSourceTryBody at h ⊢
  rw [M.bind_snd_ok] at h
  obtain ⟨a, ha, h⟩ := h
  rw [M.bind_snd_ok] at h
  obtain ⟨ref, href, h⟩ := h
  rw [M.bind_snd_ok] at h
  obtain ⟨b, hb, h⟩ := h
  rw [M.bind_snd_ok] at h
  obtain ⟨c, hcc, h⟩ := h
  obtain ⟨r, sp, hmem⟩ := checkoutPhase_ok_checkout h
  refine ⟨r, sp, ?_⟩
  rw [M.mem_bind]
  refine Or.inr ⟨a, ha, ?_⟩
  rw [M.mem_bind]
  refine Or.inr ⟨ref, href, ?_⟩
  rw [M.mem_bind]
  refine Or.inr ⟨b, hb, ?_⟩
  rw [M.mem_bind]
  exact Or.inr ⟨c, hcc, hmem⟩

/-- Claim C9: exactly one acquisition method per `getSource` call — if the
archive download is invoked no native-client operation ever is, if the native
path runs (observable through `configureAuth`) the download is never invoked,
and a successful call used one of the two. -/
theorem C9_one_method (s : GitSourceSettings) (env : Env) :
    ((∃ r c2, Event.downloadRepository r c2 ∈ events s env) →
      ∀ e ∈ events s env, isNativeOp e = false) ∧
    (Event.configureAuth ∈ events s env → ∀ e ∈ events s env, isDownload e = false) ∧
    (result s env = Except.ok () →
      Event.downloadRepository s.ref s.commit ∈ events s env ∨
        ∃ r sp, Event.checkout s.repositoryPath r sp ∈ events s env) := by
  refine ⟨?_, ?_, ?_⟩
  · rintro ⟨r, c2, hd⟩ e he
    rcases hc : env.createCommandManager s.repositoryPath with er | u2
    · rcases hlfs : s.lfs
      · rw [events_fallback s env hc hlfs] at he
        simp only [List.mem_append] at he
        rcases he with ((h | h) | h) | h
        · rcases preEvents_kind h with rfl | rfl <;> rfl
        · simp only [List.mem_singleton] at h
          subst h
          rfl
        · rw [prepEvents_kind h]
          rfl
        · rw [mem_fallbackDownload h]
          rfl
      · rw [events_create_error s env hc hlfs] at hd
        simp [preEvents] at hd
    · cases u2
      rw [events_native s env hc] at hd
      simp only [List.mem_append] at hd
      rcases hd with ((h | h) | h) | h
      · rcases preEvents_kind h with h2 | h2 <;> simp at h2
      · simp at h
      · exact absurd (prepEvents_kind h) (by simp)
      · have := nativePath_no_download _ h
        simp [isDownload] at this
  · intro hcfg e he
    rcases hc : env.createCommandManager s.repositoryPath with er | u2
    · rcases hlfs : s.lfs
      · rw [events_fallback s env hc hlfs] at hcfg
        simp only [List.mem_append] at hcfg
        rcases hcfg with ((h | h) | h) | h
        · rcases preEvents_kind h with h2 | h2 <;> simp at h2
        · simp at h
        · exact absurd (prepEvents_kind h) (by simp)
        · exact absurd (mem_fallbackDownload h) (by simp)
      · rw [events_create_error s env hc hlfs] at hcfg
        simp [preEvents] at hcfg
    · cases u2
      rw [events_native s env hc] at he
      simp only [List.mem_append] at he
      rcases he with ((h | h) | h) | h
      · rcases preEvents_kind h with rfl | rfl <;> rfl
      · simp only [List.mem_singleton] at h
        subst h
        rfl
      · rw [prepEvents_kind h]
        rfl
      · exact nativePath_no_download _ h
  · intro hres
    rcases hc : env.createCommandManager s.repositoryPath with er | u2
    · rcases hlfs : s.lfs
      · rw [result_fallback s env hc hlfs] at hres
        rcases hsub : s.submodules
        · rcases hkey : s.sshKey.isEmpty
          · rw [fallbackDownload_sshKey env hsub hkey] at hres
            simp at hres
          · left
            rw [events_fallback s env hc hlfs, fallbackDownload_download env hsub hkey]
            simp
        · rw [fallbackDownload_submodules env hsub] at hres
          simp at hres
      · rw [result_create_error s env hc hlfs] at hres
        simp at hres
    · cases u2
      rw [result_native s env hc] at hres
      obtain ⟨hinit, hbody, hfin⟩ := nativePath_snd_ok hres
      obtain ⟨r, sp, hmem⟩ := tryBody_ok_checkout hbody
      right
      refine ⟨r, sp, ?_⟩
      rw [events_native s env hc]
      simp only [List.mem_append]
      exact Or.inr (nativePath_mem_of_try hinit (Or.inl hmem))

/-! ### Claim C2: the two-phase fetch strategy -/

theorem M.bind_fst_error {α β : Type} {x : M α} {f : α → M β} {er : Err}
    (h : x.2 = Except.error er) : (M.bind x f).1 = x.1 := by
  rcases x with ⟨t, r⟩
  cases r <;> simp_all [M.bind]

theorem isFetchAt_false_of_path_none {p : String} {e : Event}
    (h : eventPath e = none) : isFetchAt p e = false := by
  cases e <;> simp_all [eventPath, isFetchAt]

theorem isFetchAt_false_of_path_ne {p q : String} {e : Event}
    (h : eventPath e = some q) (hne : q ≠ p) : isFetchAt p e = false := by
  cases e <;> simp_all [eventPath, isFetchAt]

theorem initStep_ok {env : Env} {u : String} (hgi : env.gitInit = Except.ok ())
    (hra : env.remoteAdd = Except.ok ()) : (initStep env u).2 = Except.ok () := by
  unfold initStep
  rcases hd : env.dotGitDirectoryExists <;> simp [hd, M.bind, call, hgi, hra]

theorem nativePath_fst_ok {s : GitSourceSettings} {env : Env} {g u : String}
    (hinit : (initStep env u).2 = Except.ok ()) :
    (nativePath s env g u).1 =
      [Event.setRepositoryPath s.repositoryPath] ++ (initStep env u).1
        ++ [Event.tryDisableAutomaticGarbageCollection]
        ++ (getSourceTryBody s env g u).1 ++ (removeAuthFinally s env).1 := by
  unfold nativePath
  rw [M.bind_fst_ok (show (call (Event.setRepositoryPath s.repositoryPath)
    (Except.ok ())).2 = Except.ok () from rfl)]
  rw [M.bind_fst_ok hinit]
  rw [M.bind_fst_ok (show (call Event.tryDisableAutomaticGarbageCollection
    (Except.ok env.tryDisableAutomaticGarbageCollection)).2 =
      Except.ok env.tryDisableAutomaticGarbageCollection from rfl)]
  rw [tryFinallyM_fst]
  simp [call, List.append_assoc]

theorem determineRef_existing (s : GitSourceSettings) (env : Env) (g u : String)
    (href : s.ref.isEmpty = false)
    (hb : env.remoteBranchExists g s.ref = Except.ok true) :
    determineRef s env g u =
      ([Event.remoteBranchExists g s.ref], Except.ok s.ref) := by
  unfold determineRef shouldDetermineDefaultBranch
  simp [href, hb, call, M.bind]

theorem fetchPhase_deep_match {s : GitSourceSettings} {env : Env} {g ref : String}
    (hd : s.fetchDepth ≤ 0)
    (hf : env.fetch g (RefSpec.allHistory ref s.commit) none = Except.ok ())
    (ht : env.testRef ref s.commit = Except.ok true) :
    fetchPhase s env g ref =
      ([Event.fetch g (RefSpec.allHistory ref s.commit) none,
        Event.testRef ref s.commit], Except.ok ()) := by
  unfold fetchPhase
  simp [hd, getRefSpecForAllHistory, getRefSpec, M.bind, call, hf, ht]

theorem fetchPhase_deep_mismatch {s : GitSourceSettings} {env : Env} {g ref : String}
    (hd : s.fetchDepth ≤ 0)
    (hf : env.fetch g (RefSpec.allHistory ref s.commit) none = Except.ok ())
    (ht : env.testRef ref s.commit = Except.ok false) :
    fetchPhase s env g ref =
      ([Event.fetch g (RefSpec.allHistory ref s.commit) none,
        Event.testRef ref s.commit,
        Event.fetch g (RefSpec.targeted ref s.commit) none],
       env.fetch g (RefSpec.targeted ref s.commit) none) := by
  unfold fetchPhase
  simp [hd, getRefSpecForAllHistory, getRefSpec, M.bind, call, hf, ht]

theorem fetchPhase_shallow {s : GitSourceSettings} {env : Env} {g ref : String}
    (hd : 0 < s.fetchDepth) :
    fetchPhase s env g ref =
      ([Event.fetch g (RefSpec.targeted ref s.commit) (some s.fetchDepth)],
       env.fetch g (RefSpec.targeted ref s.commit) (some s.fetchDepth)) := by
  unfold fetchPhase
  rw [if_neg (by omega)]
  rfl

theorem Mall_checkoutPhase_nofetchRepo (s : GitSourceSettings) (env : Env) (ref : String) :
    Mall (checkoutPhase s env s.repositoryPath ref)
      (fun e => isFetchAt s.repositoryPath e = false) := by
  unfold checkoutPhase
  refine Mall.bind (Mall.call rfl) fun ci _ => ?_
  refine Mall.bind (Mall.ite (fun _ => Mall.call rfl) fun _ => Mall.pure) fun _ _ => ?_
  refine Mall.bind (Mall.call rfl) fun _ _ => ?_
  refine Mall.bind (Mall.mono (Mall_submodulePhase s env) ?_) fun _ _ => ?_
  · rintro e (h | ⟨l, _, hmem⟩)
    · exact isFetchAt_false_of_path_none h
    · obtain ⟨sub, _, hp⟩ := Mall_submoduleOverrideLoop s env l e hmem
      exact isFetchAt_false_of_path_ne hp (subPath_ne_repositoryPath s sub)
  refine Mall.bind (Mall.call rfl) fun _ _ => ?_
  refine Mall.bind (Mall.call rfl) fun _ _ => ?_
  exact Mall.call rfl

theorem filter_removeAuthFinally (s : GitSourceSettings) (env : Env) (p : String) :
    (removeAuthFinally s env).1.filter (isFetchAt p) = [] := by
  rcases hp : s.persistCredentials <;> simp [removeAuthFinally, hp, call, isFetchAt]

theorem filter_preEvents (env : Env) (p : String) :
    (preEvents env).filter (isFetchAt p) = [] := by
  rcases env.fileExists <;> rcases env.directoryExists <;> simp [preEvents, isFetchAt]

theorem filter_prepEvents (env : Env) (p : String) :
    (prepEvents env).filter (isFetchAt p) = [] := by
  rcases env.directoryExists <;> simp [prepEvents, isFetchAt]

theorem filter_initStep (env : Env) (u p : String) :
    (initStep env u).1.filter (isFetchAt p) = [] := by
  unfold initStep
  rcases hd : env.dotGitDirectoryExists <;>
    rcases env.gitInit <;> simp [hd, M.bind, call, isFetchAt]

/-- Under hypotheses pinning the run down to the fetch phase with resolved ref
`ref2`, the fetch events at the top-level repository are exactly those of the
fetch phase run on `ref2`. -/
theorem filter_fetch_events_gen (s : GitSourceSettings) (env : Env)
    (devents : List Event) (ref2 : String)
    (hc : env.createCommandManager s.repositoryPath = Except.ok ())
    (hgi : env.gitInit = Except.ok ()) (hra : env.remoteAdd = Except.ok ())
    (hca : env.configureAuth = Except.ok ())
    (hdr : determineRef s env s.repositoryPath (getFetchUrl s) =
      (devents, Except.ok ref2))
    (hdev : devents.filter (isFetchAt s.repositoryPath) = [])
    (hlfs : s.lfs = true → env.lfsInstall s.repositoryPath = Except.ok ()) :
    (events s env).filter (isFetchAt s.repositoryPath) =
      (fetchPhase s env s.repositoryPath ref2).1.filter (isFetchAt s.repositoryPath) := by
  rw [events_native s env hc, nativePath_fst_ok (initStep_ok hgi hra)]
  have hbody : (getSourceTryBody s env s.repositoryPath (getFetchUrl s)).1 =
      [Event.configureAuth] ++ devents
        ++ (if s.lfs then [Event.lfsInstall s.repositoryPath] else [])
        ++ (M.bind (fetchPhase s env s.repositoryPath ref2)
              (fun _ => checkoutPhase s env s.repositoryPath ref2)).1 := by
    unfold getSourceTryBody
    rw [M.bind_fst_ok (show (call Event.configureAuth env.configureAuth).2 =
      Except.ok () from by simp [call, hca])]
    rw [hdr]
    rw [M.bind_fst_ok (show ((devents, Except.ok ref2) : M String).2 =
      Except.ok ref2 from rfl)]
    rw [M.bind_fst_ok (show (if s.lfs then call (Event.lfsInstall s.repositoryPath)
        (env.lfsInstall s.repositoryPath) else pure ()).2 = Except.ok () from by
      rcases hl : s.lfs
      · simp [call, hl]
      · simp [call, hl, hlfs hl])]
    simp [call, List.append_assoc]
  rw [hbody]
  have hrest : (M.bind (fetchPhase s env s.repositoryPath ref2)
      (fun _ => checkoutPhase s env s.repositoryPath ref2)).1.filter
        (isFetchAt s.repositoryPath) =
      (fetchPhase s env s.repositoryPath ref2).1.filter (isFetchAt s.repositoryPath) := by
    rcases hres : (fetchPhase s env s.repositoryPath ref2).2 with er | a
    · rw [M.bind_fst_error hres]
    · rw [M.bind_fst_ok hres, List.filter_append]
      rw [List.filter_eq_nil_iff.2 (fun e he hp =>
        absurd (Mall_checkoutPhase_nofetchRepo s env ref2 e he) (by simp_all))]
      simp
  simp only [List.filter_append, hrest, filter_preEvents, filter_prepEvents,
    filter_initStep, filter_removeAuthFinally, hdev]
  rcases hl : s.lfs <;> simp [isFetchAt, hl]

/-- Fetch events at the top-level repository with an explicitly given,
existing ref. -/
theorem filter_fetch_events (s : GitSourceSettings) (env : Env)
    (hc : env.createCommandManager s.repositoryPath = Except.ok ())
    (hgi : env.gitInit = Except.ok ()) (hra : env.remoteAdd = Except.ok ())
    (hca : env.configureAuth = Except.ok ())
    (href : s.ref.isEmpty = false)
    (hb : env.remoteBranchExists s.repositoryPath s.ref = Except.ok true)
    (hlfs : s.lfs = true → env.lfsInstall s.repositoryPath = Except.ok ()) :
    (events s env).filter (isFetchAt s.repositoryPath) =
      (fetchPhase s env s.repositoryPath s.ref).1.filter (isFetchAt s.repositoryPath) :=
  filter_fetch_events_gen s env [Event.remoteBranchExists s.repositoryPath s.ref] s.ref
    hc hgi hra hca (determineRef_existing s env s.repositoryPath (getFetchUrl s) href hb)
    (by simp [isFetchAt]) hlfs

/-- Claim C2: with `fetchDepth <= 0` one blanket all-history fetch is issued,
then exactly one corrective targeted fetch when and only when `testRef` fails,
and no other top-level fetch; with `fetchDepth > 0` exactly one targeted fetch
at the requested depth. -/
theorem C2_fetch_strategy (s : GitSourceSettings) (env : Env)
    (hc : env.createCommandManager s.repositoryPath = Except.ok ())
    (hgi : env.gitInit = Except.ok ()) (hra : env.remoteAdd = Except.ok ())
    (hca : env.configureAuth = Except.ok ())
    (href : s.ref.isEmpty = false)
    (hb : env.remoteBranchExists s.repositoryPath s.ref = Except.ok true)
    (hlfs : s.lfs = true → env.lfsInstall s.repositoryPath = Except.ok ()) :
    (∀ b, s.fetchDepth ≤ 0 →
      env.fetch s.repositoryPath (RefSpec.allHistory s.ref s.commit) none = Except.ok () →
      env.testRef s.ref s.commit = Except.ok b →
      (events s env).filter (isFetchAt s.repositoryPath) =
        if b then
          [Event.fetch s.repositoryPath (RefSpec.allHistory s.ref s.commit) none]
        else
          [Event.fetch s.repositoryPath (RefSpec.allHistory s.ref s.commit) none,
           Event.fetch s.repositoryPath (RefSpec.targeted s.ref s.commit) none]) ∧
    (0 < s.fetchDepth →
      (events s env).filter (isFetchAt s.repositoryPath) =
        [Event.fetch s.repositoryPath (RefSpec.targeted s.ref s.commit)
          (some s.fetchDepth)]) := by
  constructor
  · intro b hd hf ht
    rw [filter_fetch_events s env hc hgi hra hca href hb hlfs]
    rcases b
    · rw [fetchPhase_deep_mismatch hd hf ht]
      simp [isFetchAt]
    · rw [fetchPhase_deep_match hd hf ht]
      simp [isFetchAt]
  · intro hd
    rw [filter_fetch_events s env hc hgi hra hca href hb hlfs]
    rw [fetchPhase_shallow hd]
    simp [isFetchAt]

/-! ### Claims C8 and C3: default-branch resolution -/

theorem isDefaultBranchLookup_false_of_path {e : Event} {p : String}
    (h : eventPath e = some p) : isDefaultBranchLookup e = false := by
  cases e <;> simp_all [eventPath, isDefaultBranchLookup]

theorem Mall_fetchPhase_nodefault (s : GitSourceSettings) (env : Env) (g ref : String) :
    Mall (fetchPhase s env g ref) (fun e => isDefaultBranchLookup e = false) := by
  unfold fetchPhase
  refine Mall.ite (fun _ => ?_) fun _ => Mall.call rfl
  refine Mall.bind (Mall.call rfl) fun _ _ => ?_
  refine Mall.bind (Mall.call rfl) fun _ _ => ?_
  exact Mall.ite (fun _ => Mall.call rfl) fun _ => Mall.pure

theorem Mall_submodulePhase_nodefault (s : GitSourceSettings) (env : Env) :
    Mall (submodulePhase s env) (fun e => isDefaultBranchLookup e = false) := by
  unfold submodulePhase
  refine Mall.ite (fun _ => ?_) fun _ => Mall.pure
  refine Mall.tryFinally ?_ (Mall.call rfl)
  refine Mall.bind (Mall.call rfl) fun _ _ => ?_
  refine Mall.bind (Mall.call rfl) fun _ _ => ?_
  refine Mall.bind (Mall.call rfl) fun _ _ => ?_
  refine Mall.bind (Mall.call rfl) fun _ _ => ?_
  refine Mall.bind (Mall.ite (fun _ => Mall.call rfl) fun _ => Mall.pure) fun _ _ => ?_
  refine Mall.ite (fun _ => ?_) fun _ => Mall.pure
  refine Mall.bind (Mall.call rfl) fun l _ => ?_
  refine Mall.mono (Mall_submoduleOverrideLoop s env l) ?_
  rintro e ⟨sub, _, hp⟩
  exact isDefaultBranchLookup_false_of_path hp

theorem Mall_checkoutPhase_nodefault (s : GitSourceSettings) (env : Env) (g ref : String) :
    Mall (checkoutPhase s env g ref) (fun e => isDefaultBranchLookup e = false) := by
  unfold checkoutPhase
  refine Mall.bind (Mall.call rfl) fun ci _ => ?_
  refine Mall.bind (Mall.ite (fun _ => Mall.call rfl) fun _ => Mall.pure) fun _ _ => ?_
  refine Mall.bind (Mall.call rfl) fun _ _ => ?_
  refine Mall.bind (Mall_submodulePhase_nodefault s env) fun _ _ => ?_
  refine Mall.bind (Mall.call rfl) fun _ _ => ?_
  refine Mall.bind (Mall.call rfl) fun _ _ => ?_
  exact Mall.call rfl

theorem Mall_fetchPhase_ref (s : GitSourceSettings) (env : Env) (g ref : String) :
    Mall (fetchPhase s env g ref) (fun e => isFetchAt g e = true → fetchRef e = ref) := by
  unfold fetchPhase
  refine Mall.ite (fun _ => ?_) fun _ => Mall.call (fun _ => rfl)
  refine Mall.bind (Mall.call (fun _ => rfl)) fun _ _ => ?_
  refine Mall.bind (Mall.call (by simp [isFetchAt])) fun _ _ => ?_
  exact Mall.ite (fun _ => Mall.call (fun _ => rfl)) fun _ => Mall.pure

theorem determineRef_default_api (s : GitSourceSettings) (env : Env) (g u : String)
    (href : s.ref.isEmpty = true) (hcommit : s.commit.isEmpty = true)
    (hkey : s.sshKey.isEmpty = true) :
    determineRef s env g u = ([Event.getDefaultBranchApi], env.getDefaultBranchApi) := by
  unfold determineRef shouldDetermineDefaultBranch
  simp [href, hcommit, hkey, call, M.bind]

theorem determineRef_default_ssh (s : GitSourceSettings) (env : Env) (g u : String)
    (href : s.ref.isEmpty = true) (hcommit : s.commit.isEmpty = true)
    (hkey : s.sshKey.isEmpty = false) :
    determineRef s env g u =
      ([Event.getDefaultBranchGit u], env.getDefaultBranchGit) := by
  unfold determineRef shouldDetermineDefaultBranch
  simp [href, hcommit, hkey, call, M.bind]

theorem determineRef_notbranch_api (s : GitSourceSettings) (env : Env) (g u : String)
    (href : s.ref.isEmpty = false)
    (hb : env.remoteBranchExists g s.ref = Except.ok false)
    (hkey : s.sshKey.isEmpty = true) :
    determineRef s env g u =
      ([Event.remoteBranchExists g s.ref, Event.getDefaultBranchApi],
       env.getDefaultBranchApi) := by
  unfold determineRef shouldDetermineDefaultBranch
  simp [href, hb, hkey, call, M.bind]

theorem tryBody_mem_cases {e : Event} {s : GitSourceSettings} {env : Env} {g u : String}
    (h : e ∈ (getSourceTryBody s env g u).1) :
    e = Event.configureAuth ∨ e ∈ (determineRef s env g u).1 ∨
      e = Event.lfsInstall g ∨
      ∃ ref2, (determineRef s env g u).2 = Except.ok ref2 ∧
        (e ∈ (fetchPhase s env g ref2).1 ∨ e ∈ (checkoutPhase s env g ref2).1) := by
  unfold getSourceTryBody at h
  rw [M.mem_bind] at h
  rcases h with h | ⟨a, _, h⟩
  · left
    simpa [call] using h
  · rw [M.mem_bind] at h
    rcases h with h | ⟨ref2, href2, h⟩
    · exact Or.inr (Or.inl h)
    · rw [M.mem_bind] at h
      rcases h with h | ⟨b, _, h⟩
      · right; right; left
        rcases hl : s.lfs <;> rw [hl] at h <;> simp [call] at h
        exact h
      · rw [M.mem_bind] at h
        rcases h with h | ⟨c, _, h⟩
        · exact Or.inr (Or.inr (Or.inr ⟨ref2, href2, Or.inl h⟩))
        · exact Or.inr (Or.inr (Or.inr ⟨ref2, href2, Or.inr h⟩))

theorem mem_events_of_mem_tryBody (s : GitSourceSettings) (env : Env) {e : Event}
    (hc : env.createCommandManager s.repositoryPath = Except.ok ())
    (hgi : env.gitInit = Except.ok ()) (hra : env.remoteAdd = Except.ok ())
    (he : e ∈ (getSourceTryBody s env s.repositoryPath (getFetchUrl s)).1) :
    e ∈ events s env := by
  rw [events_native s env hc]
  simp only [List.mem_append]
  exact Or.inr (nativePath_mem_of_try (initStep_ok hgi hra) (Or.inl he))

theorem mem_tryBody_of_mem_determineRef (s : GitSourceSettings) (env : Env)
    {e : Event} {g u : String} (hca : env.configureAuth = Except.ok ())
    (he : e ∈ (determineRef s env g u).1) :
    e ∈ (getSourceTryBody s env g u).1 := by
  unfold getSourceTryBody
  rw [M.mem_bind]
  exact Or.inr ⟨(), by simp [call, hca], by rw [M.mem_bind]; exact Or.inl he⟩

/-- A default-branch lookup event can only have been emitted by the
default-branch-determination step. -/
theorem default_lookup_only_in_determineRef (s : GitSourceSettings) (env : Env)
    {e : Event} (he : e ∈ events s env) (hl : isDefaultBranchLookup e = true) :
    e ∈ (determineRef s env s.repositoryPath (getFetchUrl s)).1 := by
  rcases hc : env.createCommandManager s.repositoryPath with er | u2
  · rcases hlfs : s.lfs
    · rw [events_fallback s env hc hlfs] at he
      simp only [List.mem_append] at he
      rcases he with ((h | h) | h) | h
      · rcases preEvents_kind h with rfl | rfl <;> simp [isDefaultBranchLookup] at hl
      · simp only [List.mem_singleton] at h
        subst h
        simp [isDefaultBranchLookup] at hl
      · rw [prepEvents_kind h] at hl
        simp [isDefaultBranchLookup] at hl
      · rw [mem_fallbackDownload h] at hl
        simp [isDefaultBranchLookup] at hl
    · rw [events_create_error s env hc hlfs] at he
      simp only [List.mem_append] at he
      rcases he with h | h
      · rcases preEvents_kind h with rfl | rfl <;> simp [isDefaultBranchLookup] at hl
      · simp only [List.mem_singleton] at h
        subst h
        simp [isDefaultBranchLookup] at hl
  · cases u2
    rw [events_native s env hc] at he
    simp only [List.mem_append] at he
    rcases he with ((h | h) | h) | h
    · rcases preEvents_kind h with rfl | rfl <;> simp [isDefaultBranchLookup] at hl
    · simp only [List.mem_singleton] at h
      subst h
      simp [isDefaultBranchLookup] at hl
    · rw [prepEvents_kind h] at hl
      simp [isDefaultBranchLookup] at hl
    · rcases nativePath_mem_cases h with h1 | h1 | h1 | ⟨_, h1 | h1⟩
      · subst h1
        simp [isDefaultBranchLookup] at hl
      · rcases mem_initStep h1 with rfl | rfl <;> simp [isDefaultBranchLookup] at hl
      · subst h1
        simp [isDefaultBranchLookup] at hl
      · rcases tryBody_mem_cases h1 with h2 | h2 | h2 | ⟨ref2, _, h2 | h2⟩
        · subst h2
          simp [isDefaultBranchLookup] at hl
        · exact h2
        · subst h2
          simp [isDefaultBranchLookup] at hl
        · exact absurd hl (by simp [Mall_fetchPhase_nodefault s env _ ref2 e h2])
        · exact absurd hl (by simp [Mall_checkoutPhase_nodefault s env _ ref2 e h2])
      · rw [(mem_removeAuthFinally h1).1] at hl
        simp [isDefaultBranchLookup] at hl

/-- Every fetch at the top-level repository uses ref `ref2`, the value the
default-branch step resolved to. -/
theorem fetches_use_ref (s : GitSourceSettings) (env : Env)
    {devents : List Event} {ref2 : String}
    (hc : env.createCommandManager s.repositoryPath = Except.ok ())
    (hgi : env.gitInit = Except.ok ()) (hra : env.remoteAdd = Except.ok ())
    (hca : env.configureAuth = Except.ok ())
    (hdr : determineRef s env s.repositoryPath (getFetchUrl s) =
      (devents, Except.ok ref2))
    (hdev : devents.filter (isFetchAt s.repositoryPath) = [])
    (hlfs : s.lfs = true → env.lfsInstall s.repositoryPath = Except.ok ()) :
    ∀ e ∈ events s env, isFetchAt s.repositoryPath e = true → fetchRef e = ref2 := by
  intro e he hf
  have hfe : e ∈ (events s env).filter (isFetchAt s.repositoryPath) :=
    List.mem_filter.2 ⟨he, hf⟩
  rw [filter_fetch_events_gen s env devents ref2 hc hgi hra hca hdr hdev hlfs] at hfe
  exact Mall_fetchPhase_ref s env s.repositoryPath ref2 e (List.mem_filter.1 hfe).1 hf

/-- Claim C8: with no ref and no commit given and a native client available,
the default branch is resolved via the native client when an SSH key is
configured and via the remote API otherwise, and the resolved value is the ref
used by every subsequent top-level fetch. -/
theorem C8_default_branch (s : GitSourceSettings) (env : Env) (b : String)
    (hc : env.createCommandManager s.repositoryPath = Except.ok ())
    (hgi : env.gitInit = Except.ok ()) (hra : env.remoteAdd = Except.ok ())
    (hca : env.configureAuth = Except.ok ())
    (href : s.ref.isEmpty = true) (hcommit : s.commit.isEmpty = true)
    (hlfs : s.lfs = true → env.lfsInstall s.repositoryPath = Except.ok ()) :
    (s.sshKey.isEmpty = false → env.getDefaultBranchGit = Except.ok b →
      Event.getDefaultBranchGit (getFetchUrl s) ∈ events s env ∧
      Event.getDefaultBranchApi ∉ events s env ∧
      ∀ e ∈ events s env, isFetchAt s.repositoryPath e = true → fetchRef e = b) ∧
    (s.sshKey.isEmpty = true → env.getDefaultBranchApi = Except.ok b →
      Event.getDefaultBranchApi ∈ events s env ∧
      (∀ u2, Event.getDefaultBranchGit u2 ∉ events s env) ∧
      ∀ e ∈ events s env, isFetchAt s.repositoryPath e = true → fetchRef e = b) := by
  constructor
  · intro hkey hdb
    have hdr := determineRef_default_ssh s env s.repositoryPath (getFetchUrl s)
      href hcommit hkey
    refine ⟨?_, ?_, ?_⟩
    · exact mem_events_of_mem_tryBody s env hc hgi hra
        (mem_tryBody_of_mem_determineRef s env hca (by rw [hdr]; simp))
    · intro hmem
      have := default_lookup_only_in_determineRef s env hmem rfl
      rw [hdr] at this
      simp at this
    · exact fetches_use_ref s env hc hgi hra hca (by rw [hdr, hdb])
        (by simp [isFetchAt]) hlfs
  · intro hkey hdb
    have hdr := determineRef_default_api s env s.repositoryPath (getFetchUrl s)
      href hcommit hkey
    refine ⟨?_, ?_, ?_⟩
    · exact mem_events_of_mem_tryBody s env hc hgi hra
        (mem_tryBody_of_mem_determineRef s env hca (by rw [hdr]; simp))
    · intro u2 hmem
      have := default_lookup_only_in_determineRef s env hmem rfl
      rw [hdr] at this
      simp at this
    · exact fetches_use_ref s env hc hgi hra hca (by rw [hdr, hdb])
        (by simp [isFetchAt]) hlfs

/-- Counterexample to claim C3: `settingsC3.ref` is non-empty (a tag-like
ref), the requested ref does not exist as a remote branch, and yet the
default-branch lookup fires and the default branch "main" — not the original
ref "v1.0.0" — is what the blanket fetch is built from. -/
theorem C3_counterexample :
    settingsC3.ref.isEmpty = false ∧
    Event.getDefaultBranchApi ∈ events settingsC3 envC3 ∧
    Event.fetch "work" (RefSpec.allHistory "main" "") none ∈ events settingsC3 envC3 ∧
    Event.fetch "work" (RefSpec.allHistory "v1.0.0" "") none ∉ events settingsC3 envC3 := by
  decide

/-- Amended claim C3: when a non-empty ref is given that does NOT exist as a
remote branch, the default-branch lookup DOES fire and the default branch IS
substituted for the requested ref before fetching; the lookup does not fire
when the given ref exists as a remote branch. -/
theorem C3_default_branch_on_missing_ref (s : GitSourceSettings) (env : Env)
    (b : String)
    (hc : env.createCommandManager s.repositoryPath = Except.ok ())
    (hgi : env.gitInit = Except.ok ()) (hra : env.remoteAdd = Except.ok ())
    (hca : env.configureAuth = Except.ok ())
    (href : s.ref.isEmpty = false) (hkey : s.sshKey.isEmpty = true)
    (hlfs : s.lfs = true → env.lfsInstall s.repositoryPath = Except.ok ()) :
    (env.remoteBranchExists s.repositoryPath s.ref = Except.ok false →
      env.getDefaultBranchApi = Except.ok b →
      Event.getDefaultBranchApi ∈ events s env ∧
      ∀ e ∈ events s env, isFetchAt s.repositoryPath e = true → fetchRef e = b) ∧
    (env.remoteBranchExists s.repositoryPath s.ref = Except.ok true →
      Event.getDefaultBranchApi ∉ events s env ∧
      (∀ u2, Event.getDefaultBranchGit u2 ∉ events s env) ∧
      ∀ e ∈ events s env, isFetchAt s.repositoryPath e = true → fetchRef e = s.ref) := by
  constructor
  · intro hb hdb
    have hdr := determineRef_notbranch_api s env s.repositoryPath (getFetchUrl s)
      href hb hkey
    refine ⟨?_, ?_⟩
    · exact mem_events_of_mem_tryBody s env hc hgi hra
        (mem_tryBody_of_mem_determineRef s env hca (by rw [hdr]; simp))
    · exact fetches_use_ref s env hc hgi hra hca (by rw [hdr, hdb])
        (by simp [isFetchAt]) hlfs
  · intro hb
    have hdr := determineRef_existing s env s.repositoryPath (getFetchUrl s) href hb
    refine ⟨?_, ?_, ?_⟩
    · intro hmem
      have := default_lookup_only_in_determineRef s env hmem rfl
      rw [hdr] at this
      simp at this
    · intro u2 hmem
      have := default_lookup_only_in_determineRef s env hmem rfl
      rw [hdr] at this
      simp at this
    · exact fetches_use_ref s env hc hgi hra hca (by rw [hdr])
        (by simp [isFetchAt]) hlfs

/-! ### Submodule-phase machinery (claims C6, C7, C10) -/

theorem submodulePhaseOp_of_path_ne {s : GitSourceSettings} {e : Event} {p : String}
    (hp : eventPath e = some p) (hne : p ≠ s.repositoryPath) :
    isSubmodulePhaseOp s e = true := by
  cases e <;> simp_all [eventPath, isSubmodulePhaseOp, isSubmoduleOp]

theorem eventPath_of_opAt {p : String} {e : Event}
    (h : isFetchAt p e = true ∨ isCheckoutAt p e = true ∨ isLfsInstallAt p e = true ∨
      isLfsFetchAt p e = true ∨ isGetCheckoutInfoAt p e = true) :
    eventPath e = some p := by
  cases e <;>
    simp_all [isFetchAt, isCheckoutAt, isLfsInstallAt, isLfsFetchAt,
      isGetCheckoutInfoAt, eventPath]

theorem Mall_determineRef_events (s : GitSourceSettings) (env : Env) (g u : String) :
    Mall (determineRef s env g u)
      (fun e => e = Event.remoteBranchExists g s.ref ∨
        e = Event.getDefaultBranchGit u ∨ e = Event.getDefaultBranchApi) := by
  unfold determineRef shouldDetermineDefaultBranch
  refine Mall.bind ?_ fun cond _ => ?_
  · refine Mall.ite (fun _ => Mall.pure) fun _ => ?_
    refine Mall.ite (fun _ => ?_) fun _ => Mall.pure
    exact Mall.bind (Mall.call (Or.inl rfl)) fun _ _ => Mall.pure
  · refine Mall.ite (fun _ => ?_) fun _ => Mall.pure
    exact Mall.ite (fun _ => Mall.call (Or.inr (Or.inl rfl)))
      fun _ => Mall.call (Or.inr (Or.inr rfl))

theorem Mall_fetchPhase_events (s : GitSourceSettings) (env : Env) (g ref : String) :
    Mall (fetchPhase s env g ref)
      (fun e => (∃ rs d, e = Event.fetch g rs d) ∨ e = Event.testRef ref s.commit) := by
  unfold fetchPhase
  refine Mall.ite (fun _ => ?_) fun _ => Mall.call (Or.inl ⟨_, _, rfl⟩)
  refine Mall.bind (Mall.call (Or.inl ⟨_, _, rfl⟩)) fun _ _ => ?_
  refine Mall.bind (Mall.call (Or.inr rfl)) fun _ _ => ?_
  exact Mall.ite (fun _ => Mall.call (Or.inl ⟨_, _, rfl⟩)) fun _ => Mall.pure

theorem benign_determineRef (s : GitSourceSettings) (env : Env) (u : String) :
    Mall (determineRef s env s.repositoryPath u)
      (fun e => isSubmodulePhaseOp s e = false) := by
  refine Mall.mono (Mall_determineRef_events s env s.repositoryPath u) ?_
  rintro e (rfl | rfl | rfl) <;> simp [isSubmodulePhaseOp, isSubmoduleOp]

theorem benign_fetchPhase (s : GitSourceSettings) (env : Env) (ref : String) :
    Mall (fetchPhase s env s.repositoryPath ref)
      (fun e => isSubmodulePhaseOp s e = false) := by
  refine Mall.mono (Mall_fetchPhase_events s env s.repositoryPath ref) ?_
  rintro e (⟨rs, d, rfl⟩ | rfl) <;> simp [isSubmodulePhaseOp, isSubmoduleOp]

theorem loop_mem_attribution (s : GitSourceSettings) (env : Env) :
    ∀ l : List String, ∀ e ∈ (submoduleOverrideLoop s env l).1,
      ∃ t ∈ l, e ∈ (overrideIter s env t).1 := by
  intro l
  induction l with
  | nil => intro e he; simp [submoduleOverrideLoop] at he
  | cons t rest ih =>
    intro e he
    simp only [submoduleOverrideLoop] at he
    rw [M.mem_bind] at he
    rcases he with h | ⟨a, _, h⟩
    · exact ⟨t, by simp, h⟩
    · obtain ⟨t2, ht2, h2⟩ := ih e h
      exact ⟨t2, by simp [ht2], h2⟩

theorem loop_ok_iter (s : GitSourceSettings) (env : Env) :
    ∀ l : List String, (submoduleOverrideLoop s env l).2 = Except.ok () →
      ∀ t ∈ l, (overrideIter s env t).2 = Except.ok () ∧
        ∀ e ∈ (overrideIter s env t).1, e ∈ (submoduleOverrideLoop s env l).1 := by
  intro l
  induction l with
  | nil => intro _ t ht; simp at ht
  | cons t0 rest ih =>
    intro hok t ht
    simp only [submoduleOverrideLoop] at hok ⊢
    rw [M.bind_snd_ok] at hok
    obtain ⟨a, ha, hrest⟩ := hok
    rcases List.mem_cons.1 ht with rfl | ht2
    · refine ⟨by cases a; exact ha, ?_⟩
      intro e he
      rw [M.mem_bind]
      exact Or.inl he
    · obtain ⟨hiter, hsubset⟩ := ih hrest t ht2
      refine ⟨hiter, ?_⟩
      intro e he
      rw [M.mem_bind]
      exact Or.inr ⟨a, ha, hsubset e he⟩

theorem overrideIter_skip_events (s : GitSourceSettings) (env : Env) (sub : String)
    (h : env.createCommandManager (subPath s sub) ≠ Except.ok () ∨
      env.remoteBranchExists (subPath s sub) s.submodulesRemoteBranch = Except.ok false) :
    ∀ e ∈ (overrideIter s env sub).1,
      e = Event.createCommandManager (subPath s sub) ∨
      e = Event.remoteBranchExists (subPath s sub) s.submodulesRemoteBranch := by
  rcases hcs : env.createCommandManager (subPath s sub) with er | u
  · unfold overrideIter
    rcases hlf : s.lfs
    · rw [getGitCommandManager_error_nolfs hcs]
      intro e he
      simp [M.bind] at he
      exact Or.inl he
    · rw [getGitCommandManager_error_lfs hcs]
      intro e he
      simp [M.bind] at he
      exact Or.inl he
  · cases u
    have hb : env.remoteBranchExists (subPath s sub) s.submodulesRemoteBranch =
        Except.ok false := by
      rcases h with h | h
      · exact absurd hcs h
      · exact h
    unfold overrideIter
    rw [getGitCommandManager_ok s.lfs hcs]
    intro e he
    simp [M.bind, call, hb] at he
    tauto

theorem overrideUpdate_ok_events {s : GitSourceSettings} {env : Env} {sg : String}
    (hok : (overrideUpdate s env sg).2 = Except.ok ()) :
    (∃ e ∈ (overrideUpdate s env sg).1, isCheckoutAt sg e = true) ∧
    (∃ e ∈ (overrideUpdate s env sg).1, isGetCheckoutInfoAt sg e = true) ∧
    ((∃ e ∈ (overrideUpdate s env sg).1, isFetchAt sg e = true) ↔ 0 < s.fetchDepth) := by
  unfold overrideUpdate at hok ⊢
  rw [M.bind_snd_ok] at hok
  obtain ⟨a1, ha1, hok⟩ := hok
  rw [M.bind_snd_ok] at hok
  obtain ⟨a2, ha2, hok⟩ := hok
  rw [M.bind_snd_ok] at hok
  obtain ⟨ci, hci, hok⟩ := hok
  rw [M.bind_snd_ok] at hok
  obtain ⟨a3, ha3, hok⟩ := hok
  cases a1
  cases a2
  cases a3
  rw [M.bind_fst_ok ha1, M.bind_fst_ok ha2, M.bind_fst_ok hci, M.bind_fst_ok ha3]
  refine ⟨⟨Event.checkout sg ci.ref ci.startPoint, by simp [call], by simp [isCheckoutAt]⟩,
    ⟨Event.getCheckoutInfo sg s.submodulesRemoteBranch "", by simp [call], by
      simp [isGetCheckoutInfoAt]⟩, ?_⟩
  constructor
  · rintro ⟨e, he, hf⟩
    by_contra hd
    simp only [List.mem_append] at he
    rcases he with he | he | he | he | he
    · simp [call] at he
      obtain ⟨-, rfl⟩ := he
      simp [isFetchAt] at hf
    · rw [if_neg hd] at he
      simp at he
    · simp [call] at he
      subst he
      simp [isFetchAt] at hf
    · simp [call] at he
      obtain ⟨-, rfl⟩ := he
      simp [isFetchAt] at hf
    · simp [call] at he
      subst he
      simp [isFetchAt] at hf
  · intro hd
    refine ⟨Event.fetch sg (getRefSpec s.submodulesRemoteBranch "") (some s.fetchDepth),
      ?_, by simp [isFetchAt]⟩
    simp only [List.mem_append]
    refine Or.inr (Or.inl ?_)
    rw [if_pos hd]
    simp [call]

theorem overrideIter_update_eq {s : GitSourceSettings} {env : Env} {sub : String}
    (hcs : env.createCommandManager (subPath s sub) = Except.ok ())
    (hb : env.remoteBranchExists (subPath s sub) s.submodulesRemoteBranch =
      Except.ok true) :
    overrideIter s env sub =
      (Event.createCommandManager (subPath s sub) ::
        Event.remoteBranchExists (subPath s sub) s.submodulesRemoteBranch ::
        (overrideUpdate s env (subPath s sub)).1,
       (overrideUpdate s env (subPath s sub)).2) := by
  unfold overrideIter
  rw [getGitCommandManager_ok s.lfs hcs]
  simp [M.bind, call, hb]

theorem overrideIter_update {s : GitSourceSettings} {env : Env} {sub : String}
    (hcs : env.createCommandManager (subPath s sub) = Except.ok ())
    (hb : env.remoteBranchExists (subPath s sub) s.submodulesRemoteBranch = Except.ok true)
    (hok : (overrideIter s env sub).2 = Except.ok ()) :
    (∃ e ∈ (overrideIter s env sub).1, isCheckoutAt (subPath s sub) e = true) ∧
    (∃ e ∈ (overrideIter s env sub).1, isGetCheckoutInfoAt (subPath s sub) e = true) ∧
    ((∃ e ∈ (overrideIter s env sub).1, isFetchAt (subPath s sub) e = true) ↔
      0 < s.fetchDepth) := by
  rw [overrideIter_update_eq hcs hb] at hok ⊢
  obtain ⟨h1, h2, h3⟩ := overrideUpdate_ok_events hok
  refine ⟨?_, ?_, ?_⟩
  · obtain ⟨e, he, hp⟩ := h1
    exact ⟨e, by simp [he], hp⟩
  · obtain ⟨e, he, hp⟩ := h2
    exact ⟨e, by simp [he], hp⟩
  · constructor
    · rintro ⟨e, he, hf⟩
      simp only [List.mem_cons] at he
      rcases he with rfl | rfl | he
      · simp [isFetchAt] at hf
      · simp [isFetchAt] at hf
      · exact h3.1 ⟨e, he, hf⟩
    · intro hd
      obtain ⟨e, he, hf⟩ := h3.2 hd
      exact ⟨e, by simp [he], hf⟩

theorem forall_mem_append {P : Event → Prop} {l1 l2 : List Event}
    (h1 : ∀ e ∈ l1, P e) (h2 : ∀ e ∈ l2, P e) : ∀ e ∈ l1 ++ l2, P e := by
  intro e he
  rcases List.mem_append.1 he with h | h
  · exact h1 e h
  · exact h2 e h

theorem submodulePhase_structure (s : GitSourceSettings) (env : Env)
    (hsub : s.submodules = true) :
    ∃ mid, (submodulePhase s env).1 =
      Event.configureGlobalAuth :: (mid ++ [Event.removeGlobalAuth]) := by
  unfold submodulePhase
  rw [hsub, if_pos rfl, tryFinallyM_fst]
  rcases hg : env.configureGlobalAuth with er | u
  · refine ⟨[], ?_⟩
    rw [M.bind_fst_error (show (call Event.configureGlobalAuth
      (Except.error er) : M Unit).2 = Except.error er from rfl)]
    simp [call]
  · cases u
    refine ⟨(M.bind (call Event.submoduleSync env.submoduleSync) fun _ =>
      M.bind (call Event.submoduleUpdate env.submoduleUpdate) fun _ =>
      M.bind (call Event.submoduleForeach env.submoduleForeach) fun _ =>
      M.bind (if s.persistCredentials || !s.submodulesRemoteBranch.isEmpty then
          call Event.configureSubmoduleAuth env.configureSubmoduleAuth else pure ()) fun _ =>
      if !s.submodulesRemoteBranch.isEmpty then
        M.bind (call Event.getSubmodulesList env.getSubmodulesList) fun submodulesList =>
        submoduleOverrideLoop s env submodulesList
      else pure ()).1, ?_⟩
    rw [M.bind_fst_ok (show (call Event.configureGlobalAuth
      (Except.ok ()) : M Unit).2 = Except.ok () from rfl)]
    simp [call]

theorem submodulePhase_ok_parts (s : GitSourceSettings) (env : Env)
    (hsub : s.submodules = true) (hrb : s.submodulesRemoteBranch.isEmpty = false)
    (hph : (submodulePhase s env).2 = Except.ok ()) :
    ∃ l, env.getSubmodulesList = Except.ok l ∧
      (submoduleOverrideLoop s env l).2 = Except.ok () ∧
      (submodulePhase s env).1 =
        [Event.configureGlobalAuth, Event.submoduleSync, Event.submoduleUpdate,
         Event.submoduleForeach, Event.configureSubmoduleAuth, Event.getSubmodulesList]
          ++ (submoduleOverrideLoop s env l).1 ++ [Event.removeGlobalAuth] := by
  unfold submodulePhase at hph ⊢
  rw [hsub, if_pos rfl] at hph ⊢
  rw [tryFinallyM_snd_ok] at hph
  obtain ⟨hbody, hfin⟩ := hph
  rw [M.bind_snd_ok] at hbody
  obtain ⟨a1, ha1, hbody⟩ := hbody
  rw [M.bind_snd_ok] at hbody
  obtain ⟨a2, ha2, hbody⟩ := hbody
  rw [M.bind_snd_ok] at hbody
  obtain ⟨a3, ha3, hbody⟩ := hbody
  rw [M.bind_snd_ok] at hbody
  obtain ⟨a4, ha4, hbody⟩ := hbody
  rw [M.bind_snd_ok] at hbody
  obtain ⟨a5, ha5, hbody⟩ := hbody
  cases a1
  cases a2
  cases a3
  cases a4
  cases a5
  rw [if_pos (show (!s.submodulesRemoteBranch.isEmpty) = true by simp [hrb])] at hbody ⊢
  rw [if_pos (show (s.persistCredentials || !s.submodulesRemoteBranch.isEmpty) = true
    by simp [hrb])] at ha5 ⊢
  rw [M.bind_snd_ok] at hbody
  obtain ⟨l, hl, hloop⟩ := hbody
  refine ⟨l, by simpa [call] using hl, hloop, ?_⟩
  rw [tryFinallyM_fst]
  rw [M.bind_fst_ok ha1, M.bind_fst_ok ha2, M.bind_fst_ok ha3, M.bind_fst_ok ha4]
  rw [M.bind_fst_ok ha5, M.bind_fst_ok hl]
  simp [call]

/-- On a successful run with submodules enabled, the event trace splits into a
prefix, the submodule-phase segment, and a suffix, where prefix and suffix
contain no submodule-phase operation. -/
theorem events_split_ok (s : GitSourceSettings) (env : Env)
    (hsub : s.submodules = true) (hres : result s env = Except.ok ()) :
    env.createCommandManager s.repositoryPath = Except.ok () ∧
    (submodulePhase s env).2 = Except.ok () ∧
    ∃ t1 t2, events s env = t1 ++ (submodulePhase s env).1 ++ t2 ∧
      (∀ e ∈ t1, isSubmodulePhaseOp s e = false) ∧
      (∀ e ∈ t2, isSubmodulePhaseOp s e = false) := by
  rcases hc : env.createCommandManager s.repositoryPath with er | u
  · rcases hlfs : s.lfs
    · rw [result_fallback s env hc hlfs, fallbackDownload_submodules env hsub] at hres
      simp at hres
    · rw [result_create_error s env hc hlfs] at hres
      simp at hres
  · cases u
    refine ⟨rfl, ?_⟩
    rw [result_native s env hc] at hres
    obtain ⟨hinit, hbody, hfin⟩ := nativePath_snd_ok hres
    have hb2 := hbody
    unfold getSourceTryBody at hb2
    rw [M.bind_snd_ok] at hb2
    obtain ⟨a1, ha1, hb2⟩ := hb2
    rw [M.bind_snd_ok] at hb2
    obtain ⟨ref2, hrefr, hb2⟩ := hb2
    rw [M.bind_snd_ok] at hb2
    obtain ⟨a2, ha2, hb2⟩ := hb2
    rw [M.bind_snd_ok] at hb2
    obtain ⟨a3, ha3, hb2⟩ := hb2
    have hc2 := hb2
    unfold checkoutPhase at hc2
    rw [M.bind_snd_ok] at hc2
    obtain ⟨ci, hci, hc2⟩ := hc2
    rw [M.bind_snd_ok] at hc2
    obtain ⟨a4, ha4, hc2⟩ := hc2
    rw [M.bind_snd_ok] at hc2
    obtain ⟨a5, ha5, hc2⟩ := hc2
    rw [M.bind_snd_ok] at hc2
    obtain ⟨a6, ha6, hc2⟩ := hc2
    rw [M.bind_snd_ok] at hc2
    obtain ⟨a7, ha7, hc2⟩ := hc2
    rw [M.bind_snd_ok] at hc2
    obtain ⟨a8, ha8, hc2⟩ := hc2
    cases a1
    cases a2
    cases a3
    cases a4
    cases a5
    cases a6
    cases a7
    cases a8
    refine ⟨ha6, ?_⟩
    refine ⟨preEvents env ++ [Event.createCommandManager s.repositoryPath]
        ++ prepEvents env ++ [Event.setRepositoryPath s.repositoryPath]
        ++ (initStep env (getFetchUrl s)).1
        ++ [Event.tryDisableAutomaticGarbageCollection] ++ [Event.configureAuth]
        ++ (determineRef s env s.repositoryPath (getFetchUrl s)).1
        ++ (if s.lfs = true then [Event.lfsInstall s.repositoryPath] else [])
        ++ (fetchPhase s env s.repositoryPath ref2).1
        ++ [Event.getCheckoutInfo s.repositoryPath ref2 s.commit]
        ++ (if s.lfs = true
            then [Event.lfsFetch s.repositoryPath (ci.startPoint.getD ci.ref)] else [])
        ++ [Event.checkout s.repositoryPath ci.ref ci.startPoint],
      [Event.log1 none, Event.log1 (some "--format=%H"), Event.checkCommitInfo]
        ++ (removeAuthFinally s env).1, ?_, ?_, ?_⟩
    · rw [events_native s env hc, nativePath_fst_ok hinit]
      have hbt : (getSourceTryBody s env s.repositoryPath (getFetchUrl s)).1 =
          [Event.configureAuth]
            ++ (determineRef s env s.repositoryPath (getFetchUrl s)).1
            ++ (if s.lfs = true then [Event.lfsInstall s.repositoryPath] else [])
            ++ (fetchPhase s env s.repositoryPath ref2).1
            ++ (checkoutPhase s env s.repositoryPath ref2).1 := by
        unfold getSourceTryBody
        rw [M.bind_fst_ok ha1, M.bind_fst_ok hrefr, M.bind_fst_ok ha2, M.bind_fst_ok ha3]
        rcases hl : s.lfs <;> simp [call, hl, List.append_assoc]
      have hct : (checkoutPhase s env s.repositoryPath ref2).1 =
          [Event.getCheckoutInfo s.repositoryPath ref2 s.commit]
            ++ (if s.lfs = true
                then [Event.lfsFetch s.repositoryPath (ci.startPoint.getD ci.ref)] else [])
            ++ [Event.checkout s.repositoryPath ci.ref ci.startPoint]
            ++ (submodulePhase s env).1
            ++ [Event.log1 none, Event.log1 (some "--format=%H"), Event.checkCommitInfo] := by
        unfold checkoutPhase
        rw [M.bind_fst_ok hci, M.bind_fst_ok ha4, M.bind_fst_ok ha5, M.bind_fst_ok ha6,
          M.bind_fst_ok ha7, M.bind_fst_ok ha8]
        rcases hl : s.lfs <;> simp [call, hl, List.append_assoc]
      rw [hbt, hct]
      simp [List.append_assoc]
    · refine forall_mem_append (forall_mem_append (forall_mem_append (forall_mem_append
        (forall_mem_append (forall_mem_append (forall_mem_append (forall_mem_append
        (forall_mem_append (forall_mem_append (forall_mem_append (forall_mem_append
        ?_ ?_) ?_) ?_) ?_) ?_) ?_) ?_) ?_) ?_) ?_) ?_) ?_
      · intro e h
        rcases preEvents_kind h with rfl | rfl <;> rfl
      · intro e h
        simp only [List.mem_singleton] at h
        subst h
        simp [isSubmodulePhaseOp, isSubmoduleOp]
      · intro e h
        rw [prepEvents_kind h]
        rfl
      · intro e h
        simp only [List.mem_singleton] at h
        subst h
        rfl
      · intro e h
        rcases mem_initStep h with rfl | rfl <;> rfl
      · intro e h
        simp only [List.mem_singleton] at h
        subst h
        rfl
      · intro e h
        simp only [List.mem_singleton] at h
        subst h
        rfl
      · exact benign_determineRef s env (getFetchUrl s)
      · intro e h
        simp at h
        obtain ⟨-, rfl⟩ := h
        simp [isSubmodulePhaseOp, isSubmoduleOp]
      · exact benign_fetchPhase s env ref2
      · intro e h
        simp only [List.mem_singleton] at h
        subst h
        simp [isSubmodulePhaseOp, isSubmoduleOp]
      · intro e h
        simp at h
        obtain ⟨-, rfl⟩ := h
        simp [isSubmodulePhaseOp, isSubmoduleOp]
      · intro e h
        simp only [List.mem_singleton] at h
        subst h
        simp [isSubmodulePhaseOp, isSubmoduleOp]
    · refine forall_mem_append ?_ ?_
      · intro e h
        simp at h
        rcases h with rfl | rfl | rfl <;> rfl
      · intro e h
        rw [(mem_removeAuthFinally h).1]
        rfl

theorem opAt_false_of_path_ne {p : String} {e : Event}
    (hp : eventPath e ≠ some p) :
    isFetchAt p e = false ∧ isCheckoutAt p e = false ∧
    isLfsInstallAt p e = false ∧ isLfsFetchAt p e = false := by
  refine ⟨?_, ?_, ?_, ?_⟩
  · cases h : isFetchAt p e
    · rfl
    · exact absurd (eventPath_of_opAt (Or.inl h)) hp
  · cases h : isCheckoutAt p e
    · rfl
    · exact absurd (eventPath_of_opAt (Or.inr (Or.inl h))) hp
  · cases h : isLfsInstallAt p e
    · rfl
    · exact absurd (eventPath_of_opAt (Or.inr (Or.inr (Or.inl h)))) hp
  · cases h : isLfsFetchAt p e
    · rfl
    · exact absurd (eventPath_of_opAt (Or.inr (Or.inr (Or.inr (Or.inl h))))) hp

/-- Claim C6: with submodules enabled and a remote-branch override set, on a
successful run a submodule whose client could not be constructed or whose
remote lacks the override branch receives no fetch, checkout, lfs-install or
lfs-fetch, while a submodule whose remote has the branch is resolved and
checked out, with a fetch exactly when `fetchDepth > 0`. -/
theorem C6_submodule_override (s : GitSourceSettings) (env : Env)
    (l : List String) (sub : String)
    (hsub : s.submodules = true) (hrb : s.submodulesRemoteBranch.isEmpty = false)
    (hl : env.getSubmodulesList = Except.ok l) (hmem : sub ∈ l)
    (hres : result s env = Except.ok ()) :
    ((env.createCommandManager (subPath s sub) ≠ Except.ok () ∨
      env.remoteBranchExists (subPath s sub) s.submodulesRemoteBranch = Except.ok false) →
      ∀ e ∈ events s env,
        isFetchAt (subPath s sub) e = false ∧ isCheckoutAt (subPath s sub) e = false ∧
        isLfsInstallAt (subPath s sub) e = false ∧ isLfsFetchAt (subPath s sub) e = false) ∧
    (env.createCommandManager (subPath s sub) = Except.ok () →
      env.remoteBranchExists (subPath s sub) s.submodulesRemoteBranch = Except.ok true →
      (∃ e ∈ events s env, isCheckoutAt (subPath s sub) e = true) ∧
      (∃ e ∈ events s env, isGetCheckoutInfoAt (subPath s sub) e = true) ∧
      ((∃ e ∈ events s env, isFetchAt (subPath s sub) e = true) ↔ 0 < s.fetchDepth)) := by
  obtain ⟨hcok, hph, t1, t2, hsplit, hb1, hb2⟩ := events_split_ok s env hsub hres
  obtain ⟨l2, hl2, hloopok, hphtrace⟩ := submodulePhase_ok_parts s env hsub hrb hph
  rw [hl] at hl2
  obtain rfl : l = l2 := Except.ok.inj hl2
  have hattr : ∀ e ∈ events s env, eventPath e = some (subPath s sub) →
      e ∈ (overrideIter s env sub).1 := by
    intro e he hp
    have hnb : isSubmodulePhaseOp s e = true :=
      submodulePhaseOp_of_path_ne hp (subPath_ne_repositoryPath s sub)
    rw [hsplit] at he
    simp only [List.mem_append] at he
    rcases he with (h | h) | h
    · exact absurd hnb (by simp [hb1 e h])
    · rw [hphtrace] at h
      simp only [List.mem_append] at h
      rcases h with (h | h) | h
      · simp only [List.mem_cons] at h
        rcases h with rfl | rfl | rfl | rfl | rfl | rfl | h
        · simp [eventPath] at hp
        · simp [eventPath] at hp
        · simp [eventPath] at hp
        · simp [eventPath] at hp
        · simp [eventPath] at hp
        · simp [eventPath] at hp
        · simp at h
      · obtain ⟨t, ht, hit⟩ := loop_mem_attribution s env l e h
        have hpt := Mall_overrideIter s env t e hit
        rw [hpt] at hp
        obtain rfl : t = sub := subPath_injective s (Option.some.inj hp)
        exact hit
      · simp only [List.mem_singleton] at h
        subst h
        simp [eventPath] at hp
    · exact absurd hnb (by simp [hb2 e h])
  have hlift : ∀ e ∈ (overrideIter s env sub).1, e ∈ events s env := by
    intro e he
    obtain ⟨hiterok, hsubsetL⟩ := loop_ok_iter s env l hloopok sub hmem
    have h2 : e ∈ (submodulePhase s env).1 := by
      rw [hphtrace]
      simp only [List.mem_append]
      exact Or.inl (Or.inr (hsubsetL e he))
    rw [hsplit]
    simp only [List.mem_append]
    exact Or.inl (Or.inr h2)
  constructor
  · intro hskip e he
    by_cases hp : eventPath e = some (subPath s sub)
    · have hin := hattr e he hp
      rcases overrideIter_skip_events s env sub hskip e hin with rfl | rfl
      · exact ⟨rfl, rfl, rfl, rfl⟩
      · exact ⟨rfl, rfl, rfl, rfl⟩
    · exact opAt_false_of_path_ne hp
  · intro hcs hb
    obtain ⟨hiterok, hsubsetL⟩ := loop_ok_iter s env l hloopok sub hmem
    obtain ⟨h1, h2, h3⟩ := overrideIter_update hcs hb hiterok
    refine ⟨?_, ?_, ?_⟩
    · obtain ⟨e, he, hpred⟩ := h1
      exact ⟨e, hlift e he, hpred⟩
    · obtain ⟨e, he, hpred⟩ := h2
      exact ⟨e, hlift e he, hpred⟩
    · constructor
      · rintro ⟨e, he, hf⟩
        exact h3.1 ⟨e, hattr e he (eventPath_of_opAt (Or.inl hf)), hf⟩
      · intro hd
        obtain ⟨e, he, hf⟩ := h3.2 hd
        exact ⟨e, hlift e he, hf⟩

theorem subOp_false_of_phaseOp_false {s : GitSourceSettings} {e : Event}
    (h : isSubmodulePhaseOp s e = false) : isSubmoduleOp s e = false := by
  simp [isSubmodulePhaseOp] at h
  exact h.1.1

theorem Mall_verifyTail (env : Env) :
    Mall (M.bind (call (Event.log1 none) env.log1) fun _ =>
      M.bind (call (Event.log1 (some "--format=%H")) env.log1) fun _ =>
      call Event.checkCommitInfo env.checkCommitInfo)
      (fun e => e = Event.log1 none ∨ e = Event.log1 (some "--format=%H") ∨
        e = Event.checkCommitInfo) := by
  refine Mall.bind (Mall.call (Or.inl rfl)) fun _ _ => ?_
  refine Mall.bind (Mall.call (Or.inr (Or.inl rfl))) fun _ _ => ?_
  exact Mall.call (Or.inr (Or.inr rfl))

/-- If any submodule-phase operation appears in the trace at all, the trace
splits around the submodule-phase segment, with no submodule-phase operation
outside it. -/
theorem events_split_submodule (s : GitSourceSettings) (env : Env) {e0 : Event}
    (he : e0 ∈ events s env) (hk : isSubmodulePhaseOp s e0 = true) :
    ∃ t1 t2, events s env = t1 ++ (submodulePhase s env).1 ++ t2 ∧
      (∀ e ∈ t1, isSubmodulePhaseOp s e = false) ∧
      (∀ e ∈ t2, isSubmodulePhaseOp s e = false) := by
  rcases hc : env.createCommandManager s.repositoryPath with er | u
  · rcases hlfs : s.lfs
    · rw [events_fallback s env hc hlfs] at he
      simp only [List.mem_append] at he
      rcases he with ((h | h) | h) | h
      · rcases preEvents_kind h with rfl | rfl <;> simp [isSubmodulePhaseOp, isSubmoduleOp] at hk
      · simp only [List.mem_singleton] at h
        subst h
        simp [isSubmodulePhaseOp, isSubmoduleOp] at hk
      · rw [prepEvents_kind h] at hk
        simp [isSubmodulePhaseOp, isSubmoduleOp] at hk
      · rw [mem_fallbackDownload h] at hk
        simp [isSubmodulePhaseOp, isSubmoduleOp] at hk
    · rw [events_create_error s env hc hlfs] at he
      simp only [List.mem_append] at he
      rcases he with h | h
      · rcases preEvents_kind h with rfl | rfl <;> simp [isSubmodulePhaseOp, isSubmoduleOp] at hk
      · simp only [List.mem_singleton] at h
        subst h
        simp [isSubmodulePhaseOp, isSubmoduleOp] at hk
  · cases u
    rw [events_native s env hc] at he ⊢
    simp only [List.mem_append] at he
    rcases he with ((h | h) | h) | h
    · exact absurd hk (by rcases preEvents_kind h with rfl | rfl <;> simp [isSubmodulePhaseOp, isSubmoduleOp])
    · simp only [List.mem_singleton] at h
      subst h
      simp [isSubmodulePhaseOp, isSubmoduleOp] at hk
    · rw [prepEvents_kind h] at hk
      simp [isSubmodulePhaseOp, isSubmoduleOp] at hk
    · unfold nativePath at h
      rw [M.mem_bind] at h
      rcases h with h | ⟨a, ha, h⟩
      · simp [call] at h
        subst h
        simp [isSubmodulePhaseOp, isSubmoduleOp] at hk
      · rw [M.mem_bind] at h
        rcases h with h | ⟨b, hb, h⟩
        · exact absurd hk (by rcases mem_initStep h with rfl | rfl <;> simp [isSubmodulePhaseOp, isSubmoduleOp])
        · rw [M.mem_bind] at h
          rcases h with h | ⟨c, hcv, h⟩
          · simp [call] at h
            subst h
            simp [isSubmodulePhaseOp, isSubmoduleOp] at hk
          · cases b
            rw [tryFinallyM_fst, List.mem_append] at h
            rcases h with h | h
            · -- inside the try body
              unfold getSourceTryBody at h
              rw [M.mem_bind] at h
              rcases h with h | ⟨a1, ha1, h⟩
              · simp [call] at h
                subst h
                simp [isSubmodulePhaseOp, isSubmoduleOp] at hk
              · rw [M.mem_bind] at h
                rcases h with h | ⟨ref2, hr2, h⟩
                · exact absurd hk (by simp [benign_determineRef s env (getFetchUrl s) e0 h])
                · rw [M.mem_bind] at h
                  rcases h with h | ⟨a2, ha2, h⟩
                  · simp at h
                    obtain ⟨-, rfl⟩ := h
                    simp [isSubmodulePhaseOp, isSubmoduleOp] at hk
                  · rw [M.mem_bind] at h
                    rcases h with h | ⟨a3, ha3, h⟩
                    · exact absurd hk (by simp [benign_fetchPhase s env ref2 e0 h])
                    · -- inside the checkout phase
                      unfold checkoutPhase at h
                      rw [M.mem_bind] at h
                      rcases h with h | ⟨ci, hci, h⟩
                      · simp [call] at h
                        subst h
                        simp [isSubmodulePhaseOp, isSubmoduleOp] at hk
                      · rw [M.mem_bind] at h
                        rcases h with h | ⟨a4, ha4, h⟩
                        · simp at h
                          obtain ⟨-, rfl⟩ := h
                          simp [isSubmodulePhaseOp, isSubmoduleOp] at hk
                        · rw [M.mem_bind] at h
                          rcases h with h | ⟨a5, ha5, h⟩
                          · simp [call] at h
                            subst h
                            simp [isSubmodulePhaseOp, isSubmoduleOp] at hk
                          · cases a
                            cases a1
                            cases a2
                            cases a3
                            cases a4
                            cases a5
                            -- the submodule phase was reached: build the split
                            have hbt : (getSourceTryBody s env s.repositoryPath
                                (getFetchUrl s)).1 =
                                [Event.configureAuth]
                                  ++ (determineRef s env s.repositoryPath (getFetchUrl s)).1
                                  ++ (if s.lfs = true
                                      then [Event.lfsInstall s.repositoryPath] else [])
                                  ++ (fetchPhase s env s.repositoryPath ref2).1
                                  ++ (checkoutPhase s env s.repositoryPath ref2).1 := by
                              unfold getSourceTryBody
                              rw [M.bind_fst_ok ha1, M.bind_fst_ok hr2, M.bind_fst_ok ha2,
                                M.bind_fst_ok ha3]
                              rcases hlf : s.lfs <;> simp [call, hlf, List.append_assoc]
                            have hbenT1 : ∀ e ∈ preEvents env
                                ++ [Event.createCommandManager s.repositoryPath]
                                ++ prepEvents env
                                ++ [Event.setRepositoryPath s.repositoryPath]
                                ++ (initStep env (getFetchUrl s)).1
                                ++ [Event.tryDisableAutomaticGarbageCollection]
                                ++ [Event.configureAuth]
                                ++ (determineRef s env s.repositoryPath (getFetchUrl s)).1
                                ++ (if s.lfs = true
                                    then [Event.lfsInstall s.repositoryPath] else [])
                                ++ (fetchPhase s env s.repositoryPath ref2).1
                                ++ [Event.getCheckoutInfo s.repositoryPath ref2 s.commit]
                                ++ (if s.lfs = true
                                    then [Event.lfsFetch s.repositoryPath
                                      (ci.startPoint.getD ci.ref)] else [])
                                ++ [Event.checkout s.repositoryPath ci.ref ci.startPoint],
                                isSubmodulePhaseOp s e = false := by
                              refine forall_mem_append (forall_mem_append (forall_mem_append
                                (forall_mem_append (forall_mem_append (forall_mem_append
                                (forall_mem_append (forall_mem_append (forall_mem_append
                                (forall_mem_append (forall_mem_append (forall_mem_append
                                ?_ ?_) ?_) ?_) ?_) ?_) ?_) ?_) ?_) ?_) ?_) ?_) ?_
                              · intro e h2
                                rcases preEvents_kind h2 with rfl | rfl <;> rfl
                              · intro e h2
                                simp only [List.mem_singleton] at h2
                                subst h2
                                simp [isSubmodulePhaseOp, isSubmoduleOp]
                              · intro e h2
                                rw [prepEvents_kind h2]
                                rfl
                              · intro e h2
                                simp only [List.mem_singleton] at h2
                                subst h2
                                rfl
                              · intro e h2
                                rcases mem_initStep h2 with rfl | rfl <;> rfl
                              · intro e h2
                                simp only [List.mem_singleton] at h2
                                subst h2
                                rfl
                              · intro e h2
                                simp only [List.mem_singleton] at h2
                                subst h2
                                rfl
                              · exact benign_determineRef s env (getFetchUrl s)
                              · intro e h2
                                simp at h2
                                obtain ⟨-, rfl⟩ := h2
                                simp [isSubmodulePhaseOp, isSubmoduleOp]
                              · exact benign_fetchPhase s env ref2
                              · intro e h2
                                simp only [List.mem_singleton] at h2
                                subst h2
                                simp [isSubmodulePhaseOp, isSubmoduleOp]
                              · intro e h2
                                simp at h2
                                obtain ⟨-, rfl⟩ := h2
                                simp [isSubmodulePhaseOp, isSubmoduleOp]
                              · intro e h2
                                simp only [List.mem_singleton] at h2
                                subst h2
                                simp [isSubmodulePhaseOp, isSubmoduleOp]
                            rcases hph : (submodulePhase s env).2 with er2 | a6
                            · -- the submodule phase itself threw
                              have hct : (checkoutPhase s env s.repositoryPath ref2).1 =
                                  [Event.getCheckoutInfo s.repositoryPath ref2 s.commit]
                                    ++ (if s.lfs = true
                                        then [Event.lfsFetch s.repositoryPath
                                          (ci.startPoint.getD ci.ref)] else [])
                                    ++ [Event.checkout s.repositoryPath ci.ref ci.startPoint]
                                    ++ (submodulePhase s env).1 := by
                                unfold checkoutPhase
                                rw [M.bind_fst_ok hci, M.bind_fst_ok ha4, M.bind_fst_ok ha5,
                                  M.bind_fst_error hph]
                                rcases hlf : s.lfs <;> simp [call, hlf, List.append_assoc]
                              refine ⟨_, (removeAuthFinally s env).1, ?_, hbenT1, ?_⟩
                              · rw [nativePath_fst_ok hb, hbt, hct]
                                simp [call, List.append_assoc]
                              · intro e h2
                                rw [(mem_removeAuthFinally h2).1]
                                rfl
                            · -- the submodule phase completed
                              cases a6
                              have hct : (checkoutPhase s env s.repositoryPath ref2).1 =
                                  [Event.getCheckoutInfo s.repositoryPath ref2 s.commit]
                                    ++ (if s.lfs = true
                                        then [Event.lfsFetch s.repositoryPath
                                          (ci.startPoint.getD ci.ref)] else [])
                                    ++ [Event.checkout s.repositoryPath ci.ref ci.startPoint]
                                    ++ (submodulePhase s env).1
                                    ++ (M.bind (call (Event.log1 none) env.log1) fun _ =>
                                        M.bind (call (Event.log1 (some "--format=%H"))
                                          env.log1) fun _ =>
                                        call Event.checkCommitInfo env.checkCommitInfo).1 := by
                                unfold checkoutPhase
                                rw [M.bind_fst_ok hci, M.bind_fst_ok ha4, M.bind_fst_ok ha5,
                                  M.bind_fst_ok hph]
                                rcases hlf : s.lfs <;> simp [call, hlf, List.append_assoc]
                              refine ⟨_, (M.bind (call (Event.log1 none) env.log1) fun _ =>
                                M.bind (call (Event.log1 (some "--format=%H")) env.log1)
                                  fun _ =>
                                call Event.checkCommitInfo env.checkCommitInfo).1
                                  ++ (removeAuthFinally s env).1, ?_, hbenT1, ?_⟩
                              · rw [nativePath_fst_ok hb, hbt, hct]
                                simp [call, List.append_assoc]
                              · refine forall_mem_append ?_ ?_
                                · intro e h2
                                  rcases Mall_verifyTail env e h2 with rfl | rfl | rfl <;> rfl
                                · intro e h2
                                  rw [(mem_removeAuthFinally h2).1]
                                  rfl
            · exact absurd hk (by
                rw [(mem_removeAuthFinally h).1]
                simp [isSubmodulePhaseOp, isSubmoduleOp])

/-- Claim C7: with submodules enabled, `configureGlobalAuth` precedes every
submodule operation, and `removeGlobalAuth` runs exactly when
`configureGlobalAuth` ran — on normal completion, on failure of any submodule
operation, and on failure of `configureGlobalAuth` itself. -/
theorem C7_global_auth_scope (s : GitSourceSettings) (env : Env)
    (hsub : s.submodules = true) :
    (Event.configureGlobalAuth ∈ events s env ↔
      Event.removeGlobalAuth ∈ events s env) ∧
    (Event.configureGlobalAuth ∉ events s env →
      ∀ e ∈ events s env, isSubmoduleOp s e = false) ∧
    (Event.configureGlobalAuth ∈ events s env →
      ∃ t1 t2, events s env = t1 ++ Event.configureGlobalAuth :: t2 ∧
        ∀ e ∈ t1, isSubmoduleOp s e = false) := by
  obtain ⟨mid, hmid⟩ := submodulePhase_structure s env hsub
  have hfwd : Event.configureGlobalAuth ∈ events s env →
      Event.removeGlobalAuth ∈ events s env := by
    intro h
    obtain ⟨t1, t2, heq, -, -⟩ := events_split_submodule s env h
      (by simp [isSubmodulePhaseOp, isSubmoduleOp])
    rw [heq, hmid]
    simp
  have hbwd : Event.removeGlobalAuth ∈ events s env →
      Event.configureGlobalAuth ∈ events s env := by
    intro h
    obtain ⟨t1, t2, heq, -, -⟩ := events_split_submodule s env h
      (by simp [isSubmodulePhaseOp, isSubmoduleOp])
    rw [heq, hmid]
    simp
  refine ⟨⟨hfwd, hbwd⟩, ?_, ?_⟩
  · intro hnot e he
    cases hq : isSubmoduleOp s e
    · rfl
    · exfalso
      obtain ⟨t1, t2, heq, -, -⟩ := events_split_submodule s env he
        (by simp [isSubmodulePhaseOp, hq])
      apply hnot
      rw [heq, hmid]
      simp
  · intro h
    obtain ⟨t1, t2, heq, hb1, -⟩ := events_split_submodule s env h
      (by simp [isSubmodulePhaseOp, isSubmoduleOp])
    refine ⟨t1, mid ++ [Event.removeGlobalAuth] ++ t2, ?_, ?_⟩
    · rw [heq, hmid]
      simp
    · intro e he
      exact subOp_false_of_phaseOp_false (hb1 e he)

/-! ### Claim C10 -/

theorem cfgSubAuth_mem_phase {s : GitSourceSettings} {env : Env}
    (h : Event.configureSubmoduleAuth ∈ (submodulePhase s env).1) :
    s.submodules = true ∧
      (s.persistCredentials || !s.submodulesRemoteBranch.isEmpty) = true := by
  unfold submodulePhase at h
  rcases hs : s.submodules
  · rw [hs] at h
    simp at h
  · refine ⟨rfl, ?_⟩
    rw [hs, if_pos rfl, tryFinallyM_fst, List.mem_append] at h
    rcases h with h | h
    · rw [M.mem_bind] at h
      rcases h with h | ⟨a1, -, h⟩
      · simp [call] at h
      rw [M.mem_bind] at h
      rcases h with h | ⟨a2, -, h⟩
      · simp [call] at h
      rw [M.mem_bind] at h
      rcases h with h | ⟨a3, -, h⟩
      · simp [call] at h
      rw [M.mem_bind] at h
      rcases h with h | ⟨a4, -, h⟩
      · simp [call] at h
      rw [M.mem_bind] at h
      rcases h with h | ⟨a5, -, h⟩
      · by_cases hcond : (s.persistCredentials || !s.submodulesRemoteBranch.isEmpty) = true
        · exact hcond
        · rw [if_neg hcond] at h
          simp at h
      · by_cases hrb2 : (!s.submodulesRemoteBranch.isEmpty) = true
        · simp [hrb2]
        · rw [if_neg hrb2] at h
          simp at h
    · simp [call] at h

theorem cfgSubAuth_mem_phase_of_ok {s : GitSourceSettings} {env : Env}
    (hsub : s.submodules = true) (hph : (submodulePhase s env).2 = Except.ok ())
    (hcond : (s.persistCredentials || !s.submodulesRemoteBranch.isEmpty) = true) :
    Event.configureSubmoduleAuth ∈ (submodulePhase s env).1 := by
  unfold submodulePhase at hph ⊢
  rw [hsub, if_pos rfl] at hph ⊢
  rw [tryFinallyM_snd_ok] at hph
  obtain ⟨hbody, -⟩ := hph
  rw [tryFinallyM_fst, List.mem_append]
  left
  rw [M.bind_snd_ok] at hbody
  obtain ⟨a1, ha1, hbody⟩ := hbody
  rw [M.bind_snd_ok] at hbody
  obtain ⟨a2, ha2, hbody⟩ := hbody
  rw [M.bind_snd_ok] at hbody
  obtain ⟨a3, ha3, hbody⟩ := hbody
  rw [M.bind_snd_ok] at hbody
  obtain ⟨a4, ha4, hbody⟩ := hbody
  rw [M.mem_bind]
  refine Or.inr ⟨a1, ha1, ?_⟩
  rw [M.mem_bind]
  refine Or.inr ⟨a2, ha2, ?_⟩
  rw [M.mem_bind]
  refine Or.inr ⟨a3, ha3, ?_⟩
  rw [M.mem_bind]
  refine Or.inr ⟨a4, ha4, ?_⟩
  rw [M.mem_bind]
  left
  rw [if_pos hcond]
  simp [call]

/-- Claim C10: `configureSubmoduleAuth` is invoked exactly when submodules are
enabled and credentials are to be persisted or a submodule remote-branch
override is set — in particular it persists submodule credentials even when
`persistCredentials` is false, provided `submodulesRemoteBranch` is set. -/
theorem C10_submodule_auth (s : GitSourceSettings) (env : Env) :
    (Event.configureSubmoduleAuth ∈ events s env →
      s.submodules = true ∧
        (s.persistCredentials = true ∨ s.submodulesRemoteBranch.isEmpty = false)) ∧
    (result s env = Except.ok () → s.submodules = true →
      (Event.configureSubmoduleAuth ∈ events s env ↔
        (s.persistCredentials = true ∨ s.submodulesRemoteBranch.isEmpty = false))) := by
  have hknd : isSubmodulePhaseOp s Event.configureSubmoduleAuth = true := by
    simp [isSubmodulePhaseOp, isSubmoduleOp]
  have hcond_iff : ((s.persistCredentials || !s.submodulesRemoteBranch.isEmpty) = true) ↔
      (s.persistCredentials = true ∨ s.submodulesRemoteBranch.isEmpty = false) := by
    simp [Bool.or_eq_true]
  have hA : Event.configureSubmoduleAuth ∈ events s env →
      s.submodules = true ∧
        (s.persistCredentials = true ∨ s.submodulesRemoteBranch.isEmpty = false) := by
    intro h
    obtain ⟨t1, t2, heq, hb1, hb2⟩ := events_split_submodule s env h hknd
    have hph : Event.configureSubmoduleAuth ∈ (submodulePhase s env).1 := by
      rw [heq] at h
      simp only [List.mem_append] at h
      rcases h with (h | h) | h
      · exact absurd hknd (by simp [hb1 _ h])
      · exact h
      · exact absurd hknd (by simp [hb2 _ h])
    obtain ⟨h1, h2⟩ := cfgSubAuth_mem_phase hph
    exact ⟨h1, hcond_iff.1 h2⟩
  refine ⟨hA, ?_⟩
  intro hres hsub
  constructor
  · intro h
    exact (hA h).2
  · intro hcnd
    obtain ⟨hcok, hph, t1, t2, heq, -, -⟩ := events_split_ok s env hsub hres
    have hmem := cfgSubAuth_mem_phase_of_ok hsub hph (hcond_iff.2 hcnd)
    rw [heq]
    simp only [List.mem_append]
    exact Or.inl (Or.inr hmem)

/-! ### Witnesses: the claim theorems applied at concrete runs -/

/-- Witness for C1: a successful native run with `persistCredentials = false`
configures and then removes auth. -/
theorem C1_auth_removal_witness :
    settingsA.persistCredentials = false ∧
    envA.createCommandManager settingsA.repositoryPath = Except.ok () ∧
    result settingsA envA = Except.ok () ∧
    Event.configureAuth ∈ events settingsA envA ∧
    Event.removeAuth ∈ events settingsA envA := by
  have h := C1_auth_removal settingsA envA
  have hres : result settingsA envA = Except.ok () := by decide
  have hcfg := h.2.2 rfl hres
  exact ⟨rfl, rfl, hres, hcfg, h.1 rfl hcfg⟩

/-- Witness for C2: a full-history fetch whose verification succeeds performs
exactly the one blanket fetch. -/
theorem C2_fetch_strategy_witness :
    settingsA.fetchDepth ≤ 0 ∧
    (events settingsA envA).filter (isFetchAt settingsA.repositoryPath) =
      [Event.fetch settingsA.repositoryPath
        (RefSpec.allHistory settingsA.ref settingsA.commit) none] := by
  have h := (C2_fetch_strategy settingsA envA rfl rfl rfl rfl (by decide) rfl
    (fun hl => absurd hl (by decide))).1 true (by decide) rfl rfl
  exact ⟨by decide, by simpa using h⟩

/-- Witness for the amended C3: a tag-like ref that is not a remote branch
triggers the default-branch lookup. -/
theorem C3_default_branch_witness :
    settingsC3.ref.isEmpty = false ∧
    envC3.remoteBranchExists settingsC3.repositoryPath settingsC3.ref =
      Except.ok false ∧
    Event.getDefaultBranchApi ∈ events settingsC3 envC3 := by
  have h := (C3_default_branch_on_missing_ref settingsC3 envC3 "main" rfl rfl rfl rfl
    (by decide) (by decide) (fun hl => absurd hl (by decide))).1 rfl rfl
  exact ⟨by decide, rfl, h.1⟩

/-- Witness for C4: submodules requested on the fallback path is a fatal
configuration error. -/
theorem C4_fallback_conflicts_witness :
    envNoGit.createCommandManager settingsSubNoGit.repositoryPath =
      Except.error (Err.external 0) ∧
    settingsSubNoGit.lfs = false ∧ settingsSubNoGit.submodules = true ∧
    result settingsSubNoGit envNoGit = Except.error Err.submodulesNotSupported := by
  have h := (C4_fallback_conflicts settingsSubNoGit envNoGit rfl rfl).1 rfl
  exact ⟨rfl, rfl, rfl, h.1⟩

/-- Witness for C5: with LFS requested, a construction failure is re-raised. -/
theorem C5_manager_failure_witness :
    settingsLfs.lfs = true ∧
    (getGitCommandManager settingsLfs.repositoryPath settingsLfs.lfs envNoGit).2 =
      Except.error (Err.external 0) ∧
    result settingsLfs envNoGit = Except.error (Err.external 0) := by
  have h := (C5_manager_failure settingsLfs envNoGit rfl).1 rfl
  exact ⟨rfl, h.1, h.2.1⟩

/-- Witness for C6: the submodule lacking the override branch is untouched. -/
theorem C6_submodule_override_witness :
    result settingsSub envSub = Except.ok () ∧
    envSub.remoteBranchExists (subPath settingsSub "b")
      settingsSub.submodulesRemoteBranch = Except.ok false ∧
    ∀ e ∈ events settingsSub envSub,
      isFetchAt (subPath settingsSub "b") e = false ∧
      isCheckoutAt (subPath settingsSub "b") e = false ∧
      isLfsInstallAt (subPath settingsSub "b") e = false ∧
      isLfsFetchAt (subPath settingsSub "b") e = false := by
  have hres : result settingsSub envSub = Except.ok () := by decide
  have hb : envSub.remoteBranchExists (subPath settingsSub "b")
      settingsSub.submodulesRemoteBranch = Except.ok false := by decide
  have h := (C6_submodule_override settingsSub envSub ["a", "b"] "b" rfl (by decide)
    rfl (by decide) hres).1 (Or.inr hb)
  exact ⟨hres, hb, h⟩

/-- Witness for C7: with submodules enabled the global-auth escalation pair is
balanced. -/
theorem C7_global_auth_scope_witness :
    settingsSub.submodules = true ∧
    (Event.configureGlobalAuth ∈ events settingsSub envSub ↔
      Event.removeGlobalAuth ∈ events settingsSub envSub) :=
  ⟨rfl, (C7_global_auth_scope settingsSub envSub rfl).1⟩

/-- Witness for C8: with no ref/commit and no SSH key, the default branch is
resolved via the remote API. -/
theorem C8_default_branch_witness :
    settingsDefaultBranch.ref.isEmpty = true ∧
    settingsDefaultBranch.sshKey.isEmpty = true ∧
    Event.getDefaultBranchApi ∈ events settingsDefaultBranch envA := by
  have h := (C8_default_branch settingsDefaultBranch envA "main" rfl rfl rfl rfl
    (by decide) (by decide) (fun hl => absurd hl (by decide))).2 (by decide) rfl
  exact ⟨by decide, by decide, h.1⟩

/-- Witness for C9: a successful run used one of the two acquisition
methods. -/
theorem C9_one_method_witness :
    result settingsA envA = Except.ok () ∧
    (Event.downloadRepository settingsA.ref settingsA.commit ∈ events settingsA envA ∨
      ∃ r sp, Event.checkout settingsA.repositoryPath r sp ∈ events settingsA envA) := by
  have hres : result settingsA envA = Except.ok () := by decide
  exact ⟨hres, (C9_one_method settingsA envA).2.2 hres⟩

/-- Witness for C10: with the override branch set and `persistCredentials`
false, submodule credentials are still persisted. -/
theorem C10_submodule_auth_witness :
    settingsSub.persistCredentials = false ∧
    settingsSub.submodulesRemoteBranch.isEmpty = false ∧
    Event.configureSubmoduleAuth ∈ events settingsSub envSub := by
  have hres : result settingsSub envSub = Except.ok () := by decide
  have h := ((C10_submodule_auth settingsSub envSub).2 hres rfl).2 (Or.inr (by decide))
  exact ⟨rfl, by decide, h⟩

end Checkout
